import Mathlib

/-!
# Content upgrader: reference discovery, collection, synthesis and citation

A shallow embedding of `content-upgrader/index.js`.  Pure functions become
Lean functions; the external collaborators (search providers, page fetches,
the markup parser, the model service, the article API, lower-casing and value
conversions of the JavaScript runtime) are parameters, and every call made to
them is recorded in an explicit trace.
-/

namespace ContentUpgrader

/-! ## Data model -/

/-- A JavaScript string, as the list of its characters (one per code unit). -/
abbrev Str := List Char

/-- JavaScript truthiness of an optional string property: it is present and
not the empty string. -/
def truthy : Option Str → Bool
  | some (_ :: _) => true
  | _ => false

/-- The value of `a || b` when `a` is an optional string property. -/
def orElse (a : Option Str) (b : Str) : Str :=
  match a with
  | some (c :: cs) => c :: cs
  | _ => b

/-- One search result `{title, link, snippet}`; each property may be missing. -/
structure SearchResult where
  title : Option Str
  link : Option Str
  snippet : Option Str
deriving DecidableEq, Repr

/-- An element of the list handed to `scrapeArticles`: a search result object
or a bare string. -/
inductive Candidate where
  | obj (r : SearchResult)
  | str (s : Str)
deriving DecidableEq, Repr

/-- The value of `urlObj.link || urlObj`: the link string of an object, the
object itself when it has no usable `link`, or, when `urlObj` is a string, the
built-in method `String.prototype.link`, which `urlObj.link` reads there and
which is truthy. -/
inductive UrlValue where
  | text (s : Str)
  | object (r : SearchResult)
  | linkMethod
deriving DecidableEq, Repr

/-- String conversion of a URL value inside a template literal. -/
def UrlValue.render : UrlValue → Str
  | .text s => s
  | .object _ => "[object Object]".toList
  | .linkMethod => "function link() { [native code] }".toList

/-- One reference `{url, title, content}`. -/
structure ReferenceArticle where
  url : UrlValue
  title : Option Str
  content : Str
deriving DecidableEq, Repr

/-! ## addCitations -/

/-- The initial value of `citations`. -/
def citationsHeader : Str := "\n\n---\n\n## References\n\n".toList

/-- The text added by one round of the `forEach` callback of `addCitations`:
the template literal with `index + 1`, `ref.title || 'Source'` and `ref.url`. -/
def citationLine (index : Nat) (ref : ReferenceArticle) : Str :=
  Nat.toDigits 10 (index + 1) ++ ". [".toList ++ orElse ref.title "Source".toList
    ++ "](".toList ++ ref.url.render ++ ")\n".toList

/-- The `forEach` loop of `addCitations`, from position `index` on, threading
the accumulator `citations`. -/
def addCitationsLoop : List ReferenceArticle → Nat → Str → Str
  | [], _, citations => citations
  | ref :: rest, index, citations =>
      addCitationsLoop rest (index + 1) (citations ++ citationLine index ref)

/-- The function `addCitations(content, referenceArticles)`. -/
def addCitations (content : Str) (referenceArticles : List ReferenceArticle) : Str :=
  content ++ addCitationsLoop referenceArticles 0 citationsHeader

/-- The citation entry with number `i` as the specification words it:
`<i>. [<title or Source>](<url>)` and a line break. -/
def specEntry (i : Nat) (ref : ReferenceArticle) : Str :=
  Nat.toDigits 10 i ++ ['.', ' ', '['] ++ orElse ref.title ['S', 'o', 'u', 'r', 'c', 'e']
    ++ [']', '('] ++ ref.url.render ++ [')', '\n']

/-- The numbered entries of the specification, for `i = 1 .. len refs`. -/
def specEntries (refs : List ReferenceArticle) : List Str :=
  List.zipWith specEntry (List.range' 1 refs.length) refs

/-! ## String operations used by the search filter -/

/-- The method `s.includes(sub)`: `sub` occurs in `s` as a contiguous run. -/
def includes (s sub : Str) : Bool :=
  s.tails.any (fun t => sub.isPrefixOf t)

/-- The method `s.endsWith(suf)`. -/
def endsWith (s suf : Str) : Bool :=
  suf.isSuffixOf s

/-- The method `s.split(sep)` for a one-character separator: the pieces
between the separators, empty pieces included; the empty string gives one
empty piece. -/
def split (sep : Char) : Str → List Str
  | [] => [[]]
  | c :: cs =>
    if c = sep then [] :: split sep cs
    else
      match split sep cs with
      | [] => [[c]]
      | p :: ps => (c :: p) :: ps

/-- The method `parts.join(sep)`. -/
def join (sep : Str) (parts : List Str) : Str :=
  List.intercalate sep parts

/-- A lower-casing that agrees with `toLowerCase()` on ASCII text. -/
def asciiLower (s : Str) : Str :=
  s.map Char.toLower

/-- The regular expression `/\/\d{4}\/\d{2}\//` anchored at the start of `t`. -/
def dateSegmentAt (t : Str) : Bool :=
  match t with
  | s1 :: a :: b :: c :: d :: s2 :: e :: f :: s3 :: _ =>
      s1 == '/' && a.isDigit && b.isDigit && c.isDigit && d.isDigit
        && s2 == '/' && e.isDigit && f.isDigit && s3 == '/'
  | _ => false

/-- Truthiness of `url.match(/\/\d{4}\/\d{2}\//)`: the pattern occurs somewhere. -/
def matchesDateSegment (url : Str) : Bool :=
  url.tails.any dateSegmentAt

/-! ## searchGoogleForArticle -/

/-- The constant `excludedDomains`. -/
def excludedDomains : List Str :=
  ["youtube.com", "youtu.be", "facebook.com", "twitter.com", "x.com", "instagram.com",
   "linkedin.com", "pinterest.com", "reddit.com", "tiktok.com", "vimeo.com", "amazon.com",
   "ebay.com", "wikipedia.org", "google.com", "bing.com", "yahoo.com"].map String.toList

/-- The constant `excludedExtensions`. -/
def excludedExtensions : List Str :=
  [".pdf", ".doc", ".docx", ".xls", ".xlsx", ".zip", ".rar"].map String.toList

/-- The test of "just a hash anchor":
`url.includes('#') && url.split('#')[0] === url.split('#')[1]`. -/
def isHashAnchor (url : Str) : Bool :=
  includes url ['#'] && decide ((split '#' url)[0]? = (split '#' url)[1]?)

/-- The local `hasBlogPattern` of the filter callback, on the lower-cased URL. -/
def hasBlogPattern (url : Str) : Bool :=
  includes url "/blog/".toList || includes url "/article/".toList
    || includes url "/post/".toList || includes url "/news/".toList
    || includes url "/story/".toList || includes url "/entry/".toList
    || matchesDateSegment url || endsWith url ".html".toList

/-- The local `hasPathStructure`: `(url.match(/\//g) || []).length >= 2`, the
number of `/` characters in the whole lower-cased URL is at least two. -/
def hasPathStructure (url : Str) : Bool :=
  decide (2 ≤ url.count '/')

/-- The callback given to `.filter` inside `filterBlogArticles`; `lower` is the
runtime's `toLowerCase`. -/
def keepResult (lower : Str → Str) (result : SearchResult) : Bool :=
  match result.link with
  | none => false
  | some [] => false
  | some (c :: cs) =>
    let url := lower (c :: cs)
    if excludedDomains.any (fun domain => includes url domain) then false
    else if excludedExtensions.any (fun ext => includes url ext) then false
    else if isHashAnchor url then false
    else if url.length < 20 then false
    else hasBlogPattern url || hasPathStructure url

/-- The helper `filterBlogArticles`: `.filter(callback).slice(0, 2)`. -/
def filterBlogArticles (lower : Str → Str) (resultsToFilter : List SearchResult) :
    List SearchResult :=
  (resultsToFilter.filter (keepResult lower)).take 2

/-- An exception value: a plain `Error` with its message, or a `ReferenceError`. -/
inductive JSError where
  | error (message : Str)
  | referenceError (message : Str)
deriving DecidableEq, Repr

/-- What `axios.get` on the Custom Search endpoint does: it fails, or it yields
a response whose `data.items` may be missing. -/
inductive CustomSearchResponse where
  | failed
  | data (items : Option (List SearchResult))

/-- What one call of the `google-it` package does: it throws, it resolves to
something that is not an array, or it resolves to an array of results. -/
inductive GoogleItOutcome where
  | threw
  | notArray
  | array (rs : List SearchResult)

/-- A call to a search provider, as recorded in the trace. -/
inductive ProviderCall where
  | customSearch (query : Str)
  | googleIt (query : Str) (limit : Nat)
deriving DecidableEq, Repr

/-- Configuration and collaborators of `searchGoogleForArticle`. -/
structure SearchEnv where
  GOOGLE_SEARCH_API_KEY : Option Str
  GOOGLE_SEARCH_ENGINE_ID : Option Str
  toLowerCase : Str → Str
  customSearch : Str → CustomSearchResponse
  googleIt : Str → Nat → GoogleItOutcome

/-- The function `searchGoogleCustomSearchAPI(query)`: the mapped items when
there are some, the empty list otherwise and on every error. -/
def searchGoogleCustomSearchAPI (env : SearchEnv) (query : Str) : List SearchResult :=
  match env.customSearch query with
  | .failed => []
  | .data none => []
  | .data (some items) =>
    if items.length > 0 then
      items.map (fun item => { title := item.title, link := item.link, snippet := item.snippet })
    else []

/-- The first block of `searchGoogleForArticle`: the Custom Search API is tried
when both configuration values are set.  Gives the calls made and `results`. -/
def primarySearch (env : SearchEnv) (title : Str) : List ProviderCall × List SearchResult :=
  if truthy env.GOOGLE_SEARCH_API_KEY && truthy env.GOOGLE_SEARCH_ENGINE_ID then
    ([.customSearch title], searchGoogleCustomSearchAPI env title)
  else ([], [])

/-- The second block: when `results` is still empty, `google-it` is called with
limit 20, and `results` is replaced only by a non-empty array. -/
def secondarySearch (env : SearchEnv) (title : Str)
    (st : List ProviderCall × List SearchResult) : List ProviderCall × List SearchResult :=
  if st.2.length = 0 then
    (st.1 ++ [.googleIt title 20],
      match env.googleIt title 20 with
      | .array rs => if rs.length > 0 then rs else st.2
      | _ => st.2)
  else st

/-- The calls made and the value of `results` when filtering starts. -/
def initialSearch (env : SearchEnv) (title : Str) : List ProviderCall × List SearchResult :=
  secondarySearch env title (primarySearch env title)

/-- The local `simpleQuery`:
`title.split(' ').filter(word => word.length > 3).slice(0, 3).join(' ')`. -/
def simpleQuery (title : Str) : Str :=
  join [' '] (((split ' ' title).filter (fun word => word.length > 3)).take 3)

/-- The error thrown when no link is left. -/
def noLinksError : JSError :=
  .error ("No blog/article links found. Google may be blocking automated requests. "
    ++ "Consider using Google Custom Search API or providing URLs manually.").toList

/-- The outcome of a run of `searchGoogleForArticle`: the provider calls it made,
in order, and what it returned or threw. -/
structure SearchRun where
  calls : List ProviderCall
  outcome : Except JSError (List SearchResult)

/-- The value of `blogArticles` after the simplified-query retry, which is
replaced only when the retry resolves to a non-empty array. -/
def retryArticles (env : SearchEnv) (query : Str) (blogArticles : List SearchResult) :
    List SearchResult :=
  match env.googleIt query 10 with
  | .array retryResults =>
    if retryResults.length > 0 then filterBlogArticles env.toLowerCase retryResults
    else blogArticles
  | _ => blogArticles

/-- The function `searchGoogleForArticle(title)`.  The outer `catch` logs and
rethrows, so it does not change the outcome. -/
def searchGoogleForArticle (env : SearchEnv) (title : Str) : SearchRun :=
  let calls := (initialSearch env title).1
  let results := (initialSearch env title).2
  let blogArticles := filterBlogArticles env.toLowerCase results
  if blogArticles.length = 0 then
    if results.length > 0 then
      { calls := calls, outcome := .ok blogArticles }
    else
      if simpleQuery title ≠ [] ∧ simpleQuery title ≠ title then
        let retried := retryArticles env (simpleQuery title) blogArticles
        { calls := calls ++ [.googleIt (simpleQuery title) 10],
          outcome := if retried.length = 0 then .error noLinksError else .ok retried }
      else
        { calls := calls, outcome := .error noLinksError }
  else
    { calls := calls, outcome := .ok blogArticles }

/-! ## scrapeArticles -/

/-- Collaborators of `scrapeArticles`: the page request made by
`fetchArticleContent` (the response data, or the message of the error), and the
outcome of `extractMainContent(html, url)`, whose body runs the markup library. -/
structure ScrapeEnv where
  axiosGet : UrlValue → Except Str Str
  extract : Str → UrlValue → Except Str Str

/-- The function `fetchArticleContent(url)`: the response data; an error is
logged and thrown again. -/
def fetchArticleContent (env : ScrapeEnv) (url : UrlValue) : Except Str Str :=
  match env.axiosGet url with
  | .ok data => .ok data
  | .error message => .error message

/-- The local `url`: the value of `urlObj.link || urlObj`.  For a string the
left operand is the built-in `link` method, so the string itself is never the
value. -/
def Candidate.url : Candidate → UrlValue
  | .obj r =>
    match r.link with
    | some (c :: cs) => .text (c :: cs)
    | _ => .object r
  | .str _ => .linkMethod

/-- The stored title: the value of `urlObj.title || 'Untitled'`. -/
def Candidate.title : Candidate → Str
  | .obj r => orElse r.title "Untitled".toList
  | .str _ => "Untitled".toList

/-- The object pushed on `scrapedArticles` for a candidate whose extracted text
is `content`: `content.substring(0, 5000)` is stored. -/
def scrapedEntry (urlObj : Candidate) (content : Str) : ReferenceArticle :=
  { url := urlObj.url, title := some urlObj.title, content := content.take 5000 }

/-- The body of the `try` block for one candidate: fetch, then extract. -/
def tryScrape (env : ScrapeEnv) (urlObj : Candidate) : Except Str ReferenceArticle :=
  match fetchArticleContent env urlObj.url with
  | .error message => .error message
  | .ok html =>
    match env.extract html urlObj.url with
    | .error message => .error message
    | .ok content => .ok (scrapedEntry urlObj content)

/-- The body of the `catch` block of `scrapeArticles`.  Its template literal
reads the variable `url`, which is declared with `const` inside the `try` block
and so is not in scope here; no other binding of that name encloses the
handler, hence evaluating it throws a `ReferenceError` before anything is
logged, and that exception leaves the loop and the function. -/
def scrapeCatch (_message : Str) : Except JSError Unit :=
  .error (.referenceError "url is not defined".toList)

/-- The outcome of a run of `scrapeArticles`: the URLs whose fetch was started,
in order, and what the function returned or threw. -/
structure ScrapeRun where
  fetched : List UrlValue
  outcome : Except JSError (List ReferenceArticle)

/-- The `for` loop of `scrapeArticles` on the remaining candidates, with the
fetches made so far and the current `scrapedArticles`. -/
def scrapeLoop (env : ScrapeEnv) :
    List Candidate → List UrlValue → List ReferenceArticle → ScrapeRun
  | [], fetched, scrapedArticles => { fetched := fetched, outcome := .ok scrapedArticles }
  | urlObj :: rest, fetched, scrapedArticles =>
    match tryScrape env urlObj with
    | .ok entry => scrapeLoop env rest (fetched ++ [urlObj.url]) (scrapedArticles ++ [entry])
    | .error message =>
      match scrapeCatch message with
      | .ok _ => scrapeLoop env rest (fetched ++ [urlObj.url]) scrapedArticles
      | .error e => { fetched := fetched ++ [urlObj.url], outcome := .error e }

/-- The function `scrapeArticles(urls)`. -/
def scrapeArticles (env : ScrapeEnv) (urls : List Candidate) : ScrapeRun :=
  scrapeLoop env urls [] []

/-! ## Specification-side notions and fixtures -/

deriving instance DecidableEq for Except

/-- The four drop filters of the callback on a lower-cased URL: no blocklisted
domain, no excluded extension, not a same-fragment anchor, length at least 20. -/
def passesDropFilters (url : Str) : Bool :=
  !(excludedDomains.any (fun domain => includes url domain))
    && !(excludedExtensions.any (fun ext => includes url ext))
    && !(isHashAnchor url)
    && !(decide (url.length < 20))

/-- The path segments of a URL in the specification's sense: the non-empty
pieces between `/` that follow the host, query and fragment left out; a
leading `scheme://` is not part of the path. -/
def specPathSegments (url : Str) : List Str :=
  let pieces := split '/' (url.takeWhile (fun c => c != '?' && c != '#'))
  match pieces with
  | scheme :: [] :: rest =>
    if endsWith scheme [':'] then (rest.drop 1).filter (fun p => p ≠ [])
    else (pieces.drop 1).filter (fun p => p ≠ [])
  | _ => (pieces.drop 1).filter (fun p => p ≠ [])

/-- A search result with a title and a link and no snippet. -/
def mkResult (title link : String) : SearchResult :=
  { title := some title.toList, link := some link.toList, snippet := none }

/-- An environment without Custom Search configuration, in which `google-it`
answers `first` to the limit-20 query and `retry` to the limit-10 query. -/
def offlineEnv (first : List SearchResult) (retry : GoogleItOutcome) : SearchEnv :=
  { GOOGLE_SEARCH_API_KEY := none
    GOOGLE_SEARCH_ENGINE_ID := none
    toLowerCase := asciiLower
    customSearch := fun _ => .failed
    googleIt := fun _ limit => if limit = 20 then .array first else retry }

/-- A scraping environment in which the request to each URL of `down` times
out, every other URL string is served, a request for a value that is not a
string is refused, and extraction yields the page text. -/
def pagesEnv (down : List Str) : ScrapeEnv :=
  { axiosGet := fun url =>
      match url with
      | .text s =>
        if s ∈ down then .error "timeout of 10000ms exceeded".toList
        else .ok ("Page text of ".toList ++ s)
      | _ => .error "Invalid URL".toList
    extract := fun html _ => .ok html }

/-- The candidates of Scenario A. -/
def scenarioCandidates : List Candidate :=
  [.obj (mkResult "T1" "https://a.example/blog/foo"),
   .obj (mkResult "T2" "https://b.example/blog/bar")]

/-! ## extractMainContent -/

/-- The characters matched by `\s` in a regular expression and removed by
`trim()`: white space and line terminators, by code point. -/
def isSpace (c : Char) : Bool :=
  [9, 10, 11, 12, 13, 32, 160, 5760, 8232, 8233, 8239, 8287, 12288, 65279].contains c.toNat
    || (8192 ≤ c.toNat && c.toNat ≤ 8202)

/-- The method `s.trimStart()`. -/
def trimStart (s : Str) : Str :=
  s.dropWhile isSpace

/-- The method `s.trimEnd()`. -/
def trimEnd (s : Str) : Str :=
  (s.reverse.dropWhile isSpace).reverse

/-- The method `s.trim()`. -/
def trim (s : Str) : Str :=
  trimEnd (trimStart s)

/-- The scan of `.replace(/\s+/g, ' ')`; `inRun` tells that the previous
character belonged to a white-space run, for which the space is already out. -/
def collapseFrom (inRun : Bool) : Str → Str
  | [] => []
  | c :: cs =>
    if isSpace c then
      if inRun then collapseFrom true cs else ' ' :: collapseFrom true cs
    else c :: collapseFrom false cs

/-- The call `content.replace(/\s+/g, ' ')`: every maximal run of white space
becomes one space. -/
def replaceSpaceRuns (content : Str) : Str :=
  collapseFrom false content

/-- For the text `cs` that follows a line feed: the number of characters that
`\s*\n` matches there, greedy with backtracking, that is up to and including
the last line feed of the white-space run that starts `cs`; none without one. -/
def blankLineEnd (cs : Str) : Option Nat :=
  if '\n' ∈ cs.takeWhile isSpace then
    some ((cs.takeWhile isSpace).length - (cs.takeWhile isSpace).reverse.indexOf '\n')
  else none

/-- The scan of `.replace(/\n\s*\n/g, '\n\n')` with a bound on the number of
steps; each step consumes at least one character. -/
def replaceBlankLinesFuel : Nat → Str → Str
  | 0, s => s
  | _ + 1, [] => []
  | fuel + 1, c :: cs =>
    if c = '\n' then
      match blankLineEnd cs with
      | some n => '\n' :: '\n' :: replaceBlankLinesFuel fuel (cs.drop n)
      | none => c :: replaceBlankLinesFuel fuel cs
    else c :: replaceBlankLinesFuel fuel cs

/-- The call `content.replace(/\n\s*\n/g, '\n\n')`. -/
def replaceBlankLines (content : Str) : Str :=
  replaceBlankLinesFuel content.length content

/-- The document that `cheerio.load(html)` yields once the elements of the
removal selector are taken out, as far as `extractMainContent` looks at it: for
a selector, the `.text()` of the first matching element, none without a match. -/
structure Page where
  firstText : Str → Option Str

/-- The constant `selectors`. -/
def contentSelectors : List Str :=
  ["main", ".content", ".post-content", ".entry-content", ".article-content", "#content",
   ".main-content", "[role=\"main\"]"].map String.toList

/-- The `for` loop over the selectors: the value of `content` when it ends, the
trimmed text of the first selector whose element exists and has a trimmed text
longer than 200, the empty string when the loop finds none. -/
def selectorLoop (page : Page) : List Str → Str
  | [] => []
  | selector :: rest =>
    match page.firstText selector with
    | some text => if (trim text).length > 200 then trim text else selectorLoop page rest
    | none => selectorLoop page rest

/-- The value of `content` before the clean-up: the `article` branch when an
`article` element exists, the selector loop and the `body` fallback otherwise
(the text of an empty selection is the empty string). -/
def selectContent (page : Page) : Str :=
  match page.firstText "article".toList with
  | some text => trim text
  | none =>
    if selectorLoop page contentSelectors = []
        ∨ (selectorLoop page contentSelectors).length < 200 then
      trim ((page.firstText "body".toList).getD [])
    else selectorLoop page contentSelectors

/-- The clean-up step `.replace(/\s+/g, ' ').replace(/\n\s*\n/g, '\n\n').trim()`. -/
def cleanUp (content : Str) : Str :=
  trim (replaceBlankLines (replaceSpaceRuns content))

/-- The function `extractMainContent(html, url)`; `load` is the markup parser
followed by the removal of the script, style and navigation elements. -/
def extractMainContent (load : Str → Page) (html : Str) (_url : UrlValue) : Str :=
  cleanUp (selectContent (load html))

/-- A string without leading and without trailing white space. -/
def Trimmed (s : Str) : Prop :=
  (∀ c, s.head? = some c → isSpace c = false) ∧ (∀ c, s.getLast? = some c → isSpace c = false)

/-- Whether a selector qualifies in the loop of `extractMainContent`: its first
element exists and the trimmed text of that element is longer than 200. -/
def selectorQualifies (page : Page) (selector : Str) : Bool :=
  match page.firstText selector with
  | some text => decide ((trim text).length > 200)
  | none => false

/-- The selection in the words of the code's priority: the trimmed text of the
`article` element whenever one exists; otherwise the trimmed text of the first
qualifying selector of the list; otherwise the trimmed text of `body`. -/
def specSelect (page : Page) : Str :=
  match page.firstText "article".toList with
  | some text => trim text
  | none =>
    match contentSelectors.find? (selectorQualifies page) with
    | some selector => trim ((page.firstText selector).getD [])
    | none => trim ((page.firstText "body".toList).getD [])

/-- A page given by the list of its selectors with their first-match texts. -/
def pageWith (entries : List (String × Str)) : Page :=
  { firstText := fun selector =>
      (entries.find? (fun e => e.1.toList = selector)).map (fun e => e.2) }

/-! ## Model responses -/

/-- A value of the JavaScript runtime, as far as a response of the model
service can hold one.  The fields of an object are listed in enumeration
order, with distinct keys. -/
inductive JSValue where
  | undefined
  | null
  | bool (b : Bool)
  | number (n : Int)
  | string (s : Str)
  | array (items : List JSValue)
  | object (fields : List (Str × JSValue))

/-- Conversions that the runtime performs on values other than the plain cases
spelled out below. -/
structure Runtime where
  /-- Whether `v > 0` holds for a string, array or object `v` (by `ToNumber`). -/
  toNumberPositive : JSValue → Bool
  /-- The string conversion of a value that is not a string. -/
  stringOf : JSValue → Str
  /-- The message of the `TypeError` raised by reading, of the given value
  (`undefined` or `null`), the named property. -/
  typeErrorMessage : JSValue → Str → Str

/-- Truthiness of a value. -/
def JSValue.truthy : JSValue → Bool
  | .undefined => false
  | .null => false
  | .bool b => b
  | .number n => decide (n ≠ 0)
  | .string s => decide (s ≠ [])
  | .array _ => true
  | .object _ => true

/-- The test `typeof v === 'string'`. -/
def JSValue.isString : JSValue → Bool
  | .string _ => true
  | _ => false

/-- The test `Array.isArray(v)`. -/
def JSValue.isArray : JSValue → Bool
  | .array _ => true
  | _ => false

/-- The enumerable own properties of a value in `for ... in` order: the fields
of an object, the indices of an array (as decimal strings) with its elements;
nothing for a value that is not an object. -/
def JSValue.entries : JSValue → List (Str × JSValue)
  | .object fields => fields
  | .array items => items.enum.map (fun e => (Nat.toDigits 10 e.1, e.2))
  | _ => []

/-- The property read `v[key]`: none stands for the `TypeError` of reading a
property of `undefined` or `null`.  Arrays and strings answer `length` and
their indices; a missing property reads as `undefined`. -/
def JSValue.get (v : JSValue) (key : Str) : Option JSValue :=
  match v with
  | .undefined => none
  | .null => none
  | .bool _ => some .undefined
  | .number _ => some .undefined
  | .string s =>
    if key = "length".toList then some (.number s.length)
    else
      match (s.enum.find? (fun e => Nat.toDigits 10 e.1 = key)) with
      | some e => some (.string [e.2])
      | none => some .undefined
  | .array items =>
    if key = "length".toList then some (.number items.length)
    else
      match (items.enum.find? (fun e => Nat.toDigits 10 e.1 = key)) with
      | some e => some e.2
      | none => some .undefined
  | .object fields =>
    match fields.find? (fun f => f.1 = key) with
    | some f => some f.2
    | none => some .undefined

/-- The property read `v[key]` as a step that can throw: the error names the
value and the property of the failed read. -/
def JSValue.read (v : JSValue) (key : Str) : Except (JSValue × Str) JSValue :=
  match v.get key with
  | some x => .ok x
  | none => .error (v, key)

/-- The comparison `v > 0`. -/
def JSValue.gtZero (rt : Runtime) : JSValue → Bool
  | .undefined => false
  | .null => false
  | .bool b => b
  | .number n => decide (0 < n)
  | v => rt.toNumberPositive v

/-- The string conversion of a value. -/
def JSValue.toStr (rt : Runtime) : JSValue → Str
  | .string s => s
  | v => rt.stringOf v

/-- The test `typeof v === 'string' && v.length > 100`, giving the string. -/
def longString : JSValue → Option Str
  | .string s => if s.length > 100 then some s else none
  | _ => none

/-- The local function `findText(obj, depth)`, with `levels = 6 - depth` levels
left: `depth > 5` is `levels = 0`.  A string longer than 100 is returned as it
is; in an object or array each property is visited in order, a property
named `text` or `content` holding such a string is returned, and otherwise the
search descends into the property's value. -/
def findTextFrom : Nat → JSValue → Option Str
  | 0, _ => none
  | levels + 1, obj =>
    match longString obj with
    | some s => some s
    | none =>
      obj.entries.findSome? (fun e =>
        match (if e.1 = "text".toList ∨ e.1 = "content".toList then longString e.2
               else none) with
        | some s => some s
        | none => findTextFrom levels e.2)

/-- The call `findText(response)`, at depth 0. -/
def findText (response : JSValue) : Option Str :=
  findTextFrom 6 response

/-- The strings located at most `levels` levels below a value (the value
itself is at level 0). -/
def stringsWithin : Nat → JSValue → List Str
  | _, .string s => [s]
  | 0, _ => []
  | levels + 1, v => v.entries.flatMap (fun e => stringsWithin levels e.2)

/-- The callback `part => part.text || ''` of the `parts` branch; it throws on
a part that is `undefined` or `null`. -/
def partText (part : JSValue) : Except (JSValue × Str) JSValue :=
  match part.read "text".toList with
  | .error e => .error e
  | .ok text => .ok (if text.truthy then text else .string [])

/-- The call `parts.map(part => part.text || '')`, element by element. -/
def mapParts : List JSValue → Except (JSValue × Str) (List JSValue)
  | [] => .ok []
  | part :: rest =>
    match partText part with
    | .error e => .error e
    | .ok text =>
      match mapParts rest with
      | .error e => .error e
      | .ok texts => .ok (text :: texts)

/-- The callback `text => text.length > 0` of the `parts` branch. -/
def keepFragment (rt : Runtime) (text : JSValue) : Bool :=
  match text.get "length".toList with
  | some len => len.gtZero rt
  | none => false

/-- The expression `parts.map(...).filter(...).join('')`. -/
def joinParts (rt : Runtime) (parts : List JSValue) : Except (JSValue × Str) Str :=
  match mapParts parts with
  | .error e => .error e
  | .ok texts => .ok ((texts.filter (keepFragment rt)).map (JSValue.toStr rt)).flatten

/-- The value of `enhancedContent` after the branch on `candidate.content`:
the joined parts when `content.parts` is an array, else the content when it is
a string, else `content.text` when that is truthy; the initial empty string
when nothing applies. -/
def contentOfCandidate (rt : Runtime) (content : JSValue) :
    Except (JSValue × Str) JSValue :=
  if content.truthy then
    match content.read "parts".toList with
    | .error e => .error e
    | .ok (.array items) =>
      match joinParts rt items with
      | .error e => .error e
      | .ok text => .ok (.string text)
    | .ok _ =>
      if content.isString then .ok content
      else
        match content.read "text".toList with
        | .error e => .error e
        | .ok text => if text.truthy then .ok text else .ok (.string [])
  else .ok (.string [])

/-- The value of `enhancedContent` after the first `if ... else if` of the
extraction: the direct `text` when it is a non-empty string, otherwise what the
first candidate gives. -/
def directContent (rt : Runtime) (response : JSValue) : Except (JSValue × Str) JSValue :=
  match response.read "text".toList with
  | .error e => .error e
  | .ok text =>
    if text.truthy && text.isString then .ok text
    else
      match response.read "candidates".toList with
      | .error e => .error e
      | .ok candidates =>
        if candidates.truthy
            && ((candidates.get "length".toList).map (JSValue.gtZero rt)).getD false then
          match candidates.read "0".toList with
          | .error e => .error e
          | .ok candidate =>
            match candidate.read "content".toList with
            | .error e => .error e
            | .ok content => contentOfCandidate rt content
        else .ok (.string [])

/-- The message of the error thrown when no text is found. -/
def noTextMessage : Str :=
  "Could not extract text from LLM response. Check the response structure above.".toList

/-- The error that the `catch` of the extraction throws for an inner message. -/
def extractError (message : Str) : JSError :=
  .error ("Failed to extract content from LLM response: ".toList ++ message)

/-- The extraction of the text from a response: the whole `try ... catch` block
that follows the model call, giving the final `enhancedContent`. -/
def parseResponse (rt : Runtime) (response : JSValue) : Except JSError JSValue :=
  match directContent rt response with
  | .error e => .error (extractError (rt.typeErrorMessage e.1 e.2))
  | .ok enhancedContent =>
    if enhancedContent.truthy then .ok enhancedContent
    else
      match findText response with
      | some foundText => .ok (.string foundText)
      | none => .error (extractError noTextMessage)

/-! ## enhanceArticleWithLLM -/

/-- The article record `{id, title, excerpt, url}` read from the article API. -/
structure Article where
  id : Nat
  title : Str
  excerpt : Option Str
  url : Option Str
deriving DecidableEq, Repr

/-- The model service: `genAI.models.generateContent` for a model identifier and
a prompt resolves to a response or throws an error with a message. -/
structure ModelEnv where
  generateContent : Str → Str → Except Str JSValue

/-- One block of `referenceContent`: the callback of `referenceArticles.map`. -/
def referenceBlock (index : Nat) (ref : ReferenceArticle) : Str :=
  "Reference Article ".toList ++ Nat.toDigits 10 (index + 1) ++ " (".toList ++ ref.url.render
    ++ "):\n".toList ++ ref.content

/-- The local `referenceContent`: the blocks joined by the separator. -/
def referenceContent (referenceArticles : List ReferenceArticle) : Str :=
  join "\n\n---\n\n".toList (referenceArticles.enum.map (fun e => referenceBlock e.1 e.2))

/-- The prompt text before the title. -/
def promptIntro : Str :=
  ("You are an expert content writer. Your task is to enhance and rewrite an article to match the style, formatting, and quality of top-ranking articles on Google.\n"
    ++ "\n"
    ++ "ORIGINAL ARTICLE:\n"
    ++ "Title: ").toList

/-- The prompt text between the title and the original content. -/
def promptContentLabel : Str :=
  ("\n"
    ++ "Content:\n").toList

/-- The prompt text between the original content and the references. -/
def promptReferencesLabel : Str :=
  ("\n"
    ++ "\n"
    ++ "REFERENCE ARTICLES (top-ranking articles from Google):\n").toList

/-- The prompt text after the references. -/
def promptInstructions : Str :=
  ("\n"
    ++ "\n"
    ++ "INSTRUCTIONS:\n"
    ++ "1. Analyze the writing style, structure, and formatting of the reference articles\n"
    ++ "2. Rewrite and enhance the original article to match the quality and style of the reference articles\n"
    ++ "3. Improve the formatting (use proper headings, paragraphs, lists where appropriate)\n"
    ++ "4. Enhance the content while maintaining the core message and information\n"
    ++ "5. Make it more engaging and well-structured\n"
    ++ "6. Ensure the content is comprehensive and valuable\n"
    ++ "7. Keep the original title or create a better one if needed\n"
    ++ "\n"
    ++ "OUTPUT FORMAT:\n"
    ++ "- Provide the enhanced article content\n"
    ++ "- Use proper markdown formatting (headings, paragraphs, lists)\n"
    ++ "- Make it publication-ready\n"
    ++ "- Do NOT include the title in the output, only the content\n"
    ++ "\n"
    ++ "Enhanced Article Content:").toList

/-- The template literal `prompt`: the original content enters through
`originalContent.substring(0, 3000)`. -/
def buildPrompt (title originalContent references : Str) : Str :=
  promptIntro ++ title ++ promptContentLabel ++ originalContent.take 3000
    ++ promptReferencesLabel ++ references ++ promptInstructions

/-- The outcome of the source-content block of `enhanceArticleWithLLM`: the
page fetches started and the final `originalContent`.  The excerpt is used
when it is non-empty; otherwise, with a non-empty `url`, one fetch and
extraction is tried, and a failure leaves the empty string. -/
def originalContent (env : ScrapeEnv) (originalArticle : Article) : List UrlValue × Str :=
  match originalArticle.excerpt with
  | some (c :: cs) => ([], c :: cs)
  | _ =>
    match originalArticle.url with
    | some (u :: us) =>
      ([.text (u :: us)],
        match fetchArticleContent env (.text (u :: us)) with
        | .error _ => []
        | .ok html =>
          match env.extract html (.text (u :: us)) with
          | .error _ => []
          | .ok content => content)
    | _ => ([], [])

/-- The error thrown for a source content under 50 characters. -/
def insufficientContentError : JSError :=
  .error "Original article content is too short or missing".toList

/-- The model identifiers of the three nested attempts, in order. -/
def modelIdentifiers : List Str :=
  ["models/gemini-1.5-flash", "gemini-2.0-flash", "models/gemini-2.0-flash"].map String.toList

/-- The error thrown when the third attempt throws too. -/
def allModelsFailedError (message : Str) : JSError :=
  .error ("All model attempts failed. Last error: ".toList ++ message)

/-- The nested `try ... catch` around `generateContent`: the identifiers called,
in order, and the first response obtained without an exception. -/
def callModels (env : ModelEnv) (prompt : Str) : List Str × Except JSError JSValue :=
  match env.generateContent "models/gemini-1.5-flash".toList prompt with
  | .ok response => (["models/gemini-1.5-flash".toList], .ok response)
  | .error _ =>
    match env.generateContent "gemini-2.0-flash".toList prompt with
    | .ok response => (["models/gemini-1.5-flash".toList, "gemini-2.0-flash".toList], .ok response)
    | .error _ =>
      match env.generateContent "models/gemini-2.0-flash".toList prompt with
      | .ok response =>
        (["models/gemini-1.5-flash".toList, "gemini-2.0-flash".toList,
          "models/gemini-2.0-flash".toList], .ok response)
      | .error message =>
        (["models/gemini-1.5-flash".toList, "gemini-2.0-flash".toList,
          "models/gemini-2.0-flash".toList], .error (allModelsFailedError message))

/-- The outcome of a run of `enhanceArticleWithLLM`: the page fetches started,
the model identifiers called, in order, and what was returned or thrown. -/
structure EnhanceRun where
  fetched : List UrlValue
  modelCalls : List Str
  outcome : Except JSError JSValue

/-- The function `enhanceArticleWithLLM(originalArticle, referenceArticles)`.
The outer `catch` logs and rethrows, so it does not change the outcome. -/
def enhanceArticleWithLLM (rt : Runtime) (pages : ScrapeEnv) (models : ModelEnv)
    (originalArticle : Article) (referenceArticles : List ReferenceArticle) : EnhanceRun :=
  let source := originalContent pages originalArticle
  if source.2 = [] ∨ source.2.length < 50 then
    { fetched := source.1, modelCalls := [], outcome := .error insufficientContentError }
  else
    let prompt := buildPrompt originalArticle.title source.2 (referenceContent referenceArticles)
    match callModels models prompt with
    | (calls, .error e) => { fetched := source.1, modelCalls := calls, outcome := .error e }
    | (calls, .ok response) =>
      { fetched := source.1, modelCalls := calls, outcome := parseResponse rt response }

/-! ## main -/

/-- The message of an exception value. -/
def JSError.message : JSError → Str
  | .error message => message
  | .referenceError message => message

/-- The response of `GET /articles` that `axios.get` resolves to: the status,
`data.success`, `data.data`, and the JSON text of `data`. -/
structure ArticleList where
  status : Nat
  success : Bool
  data : Option (List Article)
  dataText : Str

/-- The response data of `PUT /articles/{id}`: `success` and `data`. -/
structure PutResponse where
  success : Bool
  data : Article

/-- Configuration and collaborators of `main`.  `LARAVEL_API_BASE_URL` has a
default value and is therefore always set.  The second discovery call has its own
environment, since the providers may answer differently then. -/
structure MainEnv where
  GEMINI_API_KEY : Option Str
  rt : Runtime
  getArticles : Except Str ArticleList
  search : SearchEnv
  retrySearch : SearchEnv
  pages : ScrapeEnv
  models : ModelEnv
  putArticle : Nat → List (Str × Str) → Except Str PutResponse

/-- The error thrown when the article list is empty or unsuccessful. -/
def noArticlesError : JSError :=
  .error "No articles found in the API".toList

/-- The function `fetchLatestArticle()`: the first article of the list; the
`catch` logs and rethrows. -/
def fetchLatestArticle (env : MainEnv) : Except JSError Article :=
  match env.getArticles with
  | .error message => .error (.error message)
  | .ok response =>
    if response.status ≥ 400 then
      .error (.error ("API returned status ".toList ++ Nat.toDigits 10 response.status
        ++ ": ".toList ++ response.dataText))
    else if response.success = false then .error noArticlesError
    else
      match response.data with
      | some (latestArticle :: _) => .ok latestArticle
      | _ => .error noArticlesError

/-- The function `updateArticle(articleId, updatedData)`: one `PUT` request; the
`catch` logs and rethrows. -/
def updateArticle (env : MainEnv) (articleId : Nat) (updatedData : List (Str × Str)) :
    Except JSError Article :=
  match env.putArticle articleId updatedData with
  | .error message => .error (.error message)
  | .ok response =>
    if response.success then .ok response.data
    else .error (.error "API returned success: false".toList)

/-- A stage call of `main` with its result, as recorded in the trace. -/
inductive Event where
  | fetchLatestArticle (ok : Bool)
  | searchGoogleForArticle (query : Str) (ok : Bool)
  | scrapeArticles (count : Option Nat)
  | enhanceArticleWithLLM (ok : Bool)
  | updateArticle (articleId : Nat) (updatedData : List (Str × Str)) (ok : Bool)
deriving DecidableEq, Repr

/-- Whether an event is a call of `updateArticle`. -/
def Event.isUpdate : Event → Bool
  | .updateArticle _ _ _ => true
  | _ => false

/-- The local `genericQuery`: `title.split(' ').slice(0, 5).join(' ')`. -/
def genericQuery (title : Str) : Str :=
  join [' '] ((split ' ' title).take 5)

/-- The error thrown when the second discovery call fails too. -/
def noSuitableArticlesError (first : JSError) : JSError :=
  .error ("Could not find suitable articles. Original error: ".toList ++ first.message)

/-- Step 2 of `main`: `searchGoogleForArticle` with the title and, when that
throws, once more with the generic query. -/
def discover (env : MainEnv) (title : Str) : List Event × Except JSError (List SearchResult) :=
  match (searchGoogleForArticle env.search title).outcome with
  | .ok googleResults => ([.searchGoogleForArticle title true], .ok googleResults)
  | .error e =>
    match (searchGoogleForArticle env.retrySearch (genericQuery title)).outcome with
    | .ok googleResults =>
      ([.searchGoogleForArticle title false,
        .searchGoogleForArticle (genericQuery title) true], .ok googleResults)
    | .error _ =>
      ([.searchGoogleForArticle title false,
        .searchGoogleForArticle (genericQuery title) false],
       .error (noSuitableArticlesError e))

/-- The object literal passed to `updateArticle`: its keys with their values. -/
def updatePayload (latestArticle : Article) (finalContent : Str) : List (Str × Str) :=
  [("title".toList, latestArticle.title), ("enhanced_content".toList, finalContent)]

/-- The outcome of a run of `main`: the stage calls in order and the exit code
of the process (1 from `process.exit(1)` in the `catch`, 0 otherwise). -/
structure MainRun where
  events : List Event
  exitCode : Nat

/-- Steps 4 to 6 of `main` for a non-empty list of scraped references, after
the events `before`. -/
def enhanceAndPublish (env : MainEnv) (latestArticle : Article)
    (scrapedArticles : List ReferenceArticle) (before : List Event) : MainRun :=
  match (enhanceArticleWithLLM env.rt env.pages env.models latestArticle
      scrapedArticles).outcome with
  | .error _ => { events := before ++ [.enhanceArticleWithLLM false], exitCode := 1 }
  | .ok enhancedContent =>
    let finalContent := addCitations (enhancedContent.toStr env.rt) scrapedArticles
    let updatedData := updatePayload latestArticle finalContent
    match updateArticle env latestArticle.id updatedData with
    | .error _ =>
      { events := before ++ [.enhanceArticleWithLLM true,
          .updateArticle latestArticle.id updatedData false], exitCode := 1 }
    | .ok _ =>
      { events := before ++ [.enhanceArticleWithLLM true,
          .updateArticle latestArticle.id updatedData true], exitCode := 0 }

/-- Step 3 of `main` and what follows, after the events `before`. -/
def scrapeAndAfter (env : MainEnv) (latestArticle : Article) (googleResults : List SearchResult)
    (before : List Event) : MainRun :=
  match (scrapeArticles env.pages (googleResults.map Candidate.obj)).outcome with
  | .error _ => { events := before ++ [.scrapeArticles none], exitCode := 1 }
  | .ok scrapedArticles =>
    if scrapedArticles.length = 0 then
      { events := before ++ [.scrapeArticles (some 0)], exitCode := 1 }
    else
      enhanceAndPublish env latestArticle scrapedArticles
        (before ++ [.scrapeArticles (some scrapedArticles.length)])

/-- The function `main()`. -/
def main (env : MainEnv) : MainRun :=
  if truthy env.GEMINI_API_KEY = false then { events := [], exitCode := 1 }
  else
    match fetchLatestArticle env with
    | .error _ => { events := [.fetchLatestArticle false], exitCode := 1 }
    | .ok latestArticle =>
      match discover env latestArticle.title with
      | (searches, .error _) =>
        { events := .fetchLatestArticle true :: searches, exitCode := 1 }
      | (searches, .ok googleResults) =>
        scrapeAndAfter env latestArticle googleResults (.fetchLatestArticle true :: searches)

/-! ## Fixtures for responses and runs -/

/-- A runtime with the usual conversions on the values used in the examples:
numbers print in decimal, other values as `[object Object]`, and no string,
array or object counts as positive. -/
def plainRuntime : Runtime :=
  { toNumberPositive := fun _ => false
    stringOf := fun v =>
      match v with
      | .number n => if n < 0 then '-' :: Nat.toDigits 10 n.natAbs else Nat.toDigits 10 n.natAbs
      | _ => "[object Object]".toList
    typeErrorMessage := fun _ key => "Cannot read properties of undefined: ".toList ++ key }

/-- A string value. -/
def jsText (s : String) : JSValue :=
  .string s.toList

/-- An object value from its fields. -/
def jsObject (fields : List (String × JSValue)) : JSValue :=
  .object (fields.map (fun f => (f.1.toList, f.2)))

/-- A response whose first candidate has the given `content`. -/
def candidateResponse (content : JSValue) : JSValue :=
  jsObject [("candidates", .array [jsObject [("content", content)]])]

/-- A model service that answers each identifier as listed and throws for an
identifier that is not listed. -/
def modelsAnswering (answers : List (String × Except Str JSValue)) : ModelEnv :=
  { generateContent := fun model _ =>
      match answers.find? (fun a => a.1.toList = model) with
      | some a => a.2
      | none => .error "model not found".toList }

/-- The article of Scenario A, with an excerpt of 52 characters. -/
def scenarioArticle : Article :=
  { id := 42
    title := "X".toList
    excerpt := some "abc def ghi jkl mno pqr stu vwx yz0 123 456 789 abcd".toList
    url := none }

/-- The text fragment that a part contributes when its `text` is a string or
is missing. -/
def fragmentValue : Option Str → JSValue
  | some s => .string s
  | none => .undefined

/-! ## Trace predicates and fixtures for main -/

/-- Whether an event is a call of `searchGoogleForArticle`. -/
def Event.isSearch : Event → Bool
  | .searchGoogleForArticle _ _ => true
  | _ => false

/-- The events before a call of `updateArticle` in which every upstream stage
succeeded, in order: the article fetch, discovery (at the first call, or at the
second after a failed first), scraping with at least one reference, and the
enhancement. -/
def upstreamSucceeded : List Event → Bool
  | [.fetchLatestArticle true, .searchGoogleForArticle _ true, .scrapeArticles (some (_ + 1)),
      .enhanceArticleWithLLM true] => true
  | [.fetchLatestArticle true, .searchGoogleForArticle _ false, .searchGoogleForArticle _ true,
      .scrapeArticles (some (_ + 1)), .enhanceArticleWithLLM true] => true
  | _ => false

/-- Whether an event records the failure of the article fetch, of scraping
(an exception or no reference) or of the enhancement. -/
def Event.failed : Event → Bool
  | .fetchLatestArticle ok => !ok
  | .scrapeArticles none => true
  | .scrapeArticles (some 0) => true
  | .enhanceArticleWithLLM ok => !ok
  | _ => false

/-- Whether discovery failed: the last call of `searchGoogleForArticle` threw. -/
def discoveryFailed (events : List Event) : Bool :=
  match (events.filter Event.isSearch).getLast? with
  | some (.searchGoogleForArticle _ ok) => !ok
  | _ => false

/-- Whether a stage before the update failed. -/
def upstreamFailed (events : List Event) : Bool :=
  events.any Event.failed || discoveryFailed events

/-- The environment of Scenario A: discovery finds the two links, both pages
are served, the first model identifier answers `Hello world`, and the update
succeeds. -/
def scenarioEnv : MainEnv :=
  { GEMINI_API_KEY := some "key".toList
    rt := plainRuntime
    getArticles := .ok { status := 200, success := true, data := some [scenarioArticle],
                         dataText := [] }
    search := offlineEnv [mkResult "T1" "https://a.example/blog/foo",
                          mkResult "T2" "https://b.example/blog/bar"] .threw
    retrySearch := offlineEnv [] .threw
    pages := pagesEnv []
    models := modelsAnswering [("models/gemini-1.5-flash",
                .ok (jsObject [("text", jsText "Hello world")]))]
    putArticle := fun _ _ => .ok { success := true, data := scenarioArticle } }

/-- The environment of Scenario B: as Scenario A, but no search returns any
result. -/
def scenarioNoLinksEnv : MainEnv :=
  { scenarioEnv with search := offlineEnv [] .threw }

/-! ## Specification-side notions for the prompt and the depth bound -/

/-- The reference block with number `i` as the specification words it:
`Reference Article <i> (<url>):`, a line break, and the content. -/
def specBlock (i : Nat) (ref : ReferenceArticle) : Str :=
  "Reference Article ".toList ++ Nat.toDigits 10 i ++ [' ', '('] ++ ref.url.render
    ++ [')', ':', '\n'] ++ ref.content

/-- The reference blocks of the specification, for `i = 1 .. len refs`. -/
def specBlocks (refs : List ReferenceArticle) : List Str :=
  List.zipWith specBlock (List.range' 1 refs.length) refs

/-- A value wrapped in `n` nested objects with the single field `a`: the value
is located `n` levels below the root. -/
def nestUnder : Nat → JSValue → JSValue
  | 0, v => v
  | n + 1, v => .object [("a".toList, nestUnder n v)]

/-- A value cut off below `levels` levels: what lies deeper is dropped, and of
the values at the last level only the strings are kept. -/
def cutBelow : Nat → JSValue → JSValue
  | _, .string s => .string s
  | 0, _ => .undefined
  | levels + 1, .object fields => .object (fields.map (fun f => (f.1, cutBelow levels f.2)))
  | levels + 1, .array items => .array (items.map (cutBelow levels))
  | _ + 1, v => v

/-- The environment of Scenario A with another credential and an article API
that refuses the update: the inputs of the pipeline are those of Scenario A. -/
def scenarioRefusedEnv : MainEnv :=
  { scenarioEnv with
    GEMINI_API_KEY := some "other".toList
    putArticle := fun _ _ => .error "Request failed with status code 503".toList }

/-- The strings that `findText` can return from a value with `levels` levels
left, in the order of its traversal: the value itself when it is a string;
otherwise, for each property in order, the property's value when the property
is named `text` or `content` and holds a string, followed by the strings
reachable in the property's value with one level less. -/
def candidateStrings : Nat → JSValue → List Str
  | 0, _ => []
  | _ + 1, .string s => [s]
  | levels + 1, v =>
    v.entries.flatMap (fun e =>
      (if e.1 = "text".toList ∨ e.1 = "content".toList then
        match e.2 with
        | .string s => [s]
        | _ => []
       else []) ++ candidateStrings levels e.2)

/-- Whether the article API answers the request `PUT /articles/{articleId}`
with the given body by a response with `success` set. -/
def putAccepted (env : MainEnv) (articleId : Nat) (body : List (Str × Str)) : Bool :=
  match env.putArticle articleId body with
  | .ok response => response.success
  | .error _ => false

/-! ## Lemmas for addCitations -/

theorem citationLine_eq_specEntry (index : Nat) (ref : ReferenceArticle) :
    citationLine index ref = specEntry (index + 1) ref := by
  simp [citationLine, specEntry]

theorem addCitationsLoop_eq (refs : List ReferenceArticle) (index : Nat) (acc : Str) :
    addCitationsLoop refs index acc
      = acc ++ (List.zipWith specEntry (List.range' (index + 1) refs.length) refs).flatten := by
  induction refs generalizing index acc with
  | nil => simp [addCitationsLoop]
  | cons ref rest ih =>
    simp [addCitationsLoop, ih, citationLine_eq_specEntry, List.range'_succ, List.append_assoc]

/-- C1: `addCitations body refs` is `body`, then the fixed separator and
heading, then one entry `<i>. [<title>](<url>)` per reference, numbered from 1
in `refs` order; the label is the title when one is present (and non-empty) and
`Source` when it is missing; the block has exactly `len refs` entries; and
Scenario A evaluates to the published text. -/
theorem addCitations_spec (body : Str) (refs : List ReferenceArticle) :
    addCitations body refs
        = body ++ "\n\n---\n\n## References\n\n".toList ++ (specEntries refs).flatten
    ∧ (specEntries refs).length = refs.length
    ∧ (∀ k : Nat, (specEntries refs)[k]? = (refs[k]?).map (specEntry (k + 1)))
    ∧ (∀ (u : UrlValue) (c : Str) (a : Char) (t : Str),
        orElse (ReferenceArticle.mk u (some (a :: t)) c).title "Source".toList = a :: t)
    ∧ (∀ (u : UrlValue) (c : Str),
        orElse (ReferenceArticle.mk u none c).title "Source".toList = "Source".toList)
    ∧ addCitations "Hello world".toList
        [⟨.text "https://a.example/blog/foo".toList, some "T1".toList, []⟩,
         ⟨.text "https://b.example/blog/bar".toList, some "T2".toList, []⟩]
        = ("Hello world\n\n---\n\n## References\n\n1. [T1](https://a.example/blog/foo)\n"
            ++ "2. [T2](https://b.example/blog/bar)\n").toList := by
  refine ⟨?_, ?_, ?_, ?_, ?_, ?_⟩
  · simp [addCitations, addCitationsLoop_eq, specEntries, citationsHeader, List.append_assoc]
  · simp [specEntries]
  · intro k
    by_cases h : k < refs.length
    · simp [specEntries, List.getElem?_zipWith, List.getElem?_range', h, Nat.add_comm]
    · have h2 : refs.length ≤ k := Nat.le_of_not_lt h
      simp [specEntries, List.getElem?_zipWith, List.getElem?_range', h,
        List.getElem?_eq_none h2]
  · intro u c a t
    rfl
  · intro u c
    rfl
  · decide

/-! ## Lemmas for scrapeArticles -/

theorem scrapeLoop_ok (env : ScrapeEnv) (urls : List Candidate) :
    ∀ (fetched : List UrlValue) (acc refs : List ReferenceArticle),
      (scrapeLoop env urls fetched acc).outcome = .ok refs →
        refs = acc ++ urls.filterMap (fun c => (tryScrape env c).toOption)
          ∧ ∀ c ∈ urls, ∃ e, tryScrape env c = .ok e := by
  induction urls with
  | nil =>
    intro fetched acc refs h
    simp only [scrapeLoop, Except.ok.injEq] at h
    simp [h]
  | cons c rest ih =>
    intro fetched acc refs h
    unfold scrapeLoop at h
    cases hts : tryScrape env c with
    | error m =>
      rw [hts] at h
      simp [scrapeCatch] at h
    | ok e =>
      rw [hts] at h
      obtain ⟨h1, h2⟩ := ih _ _ _ h
      refine ⟨?_, ?_⟩
      · simp [h1, hts, Except.toOption]
      · intro c2 hc2
        rcases List.mem_cons.mp hc2 with rfl | hm
        · exact ⟨e, hts⟩
        · exact h2 c2 hm

theorem scrapeLoop_first_failure (env : ScrapeEnv) (urlObj : Candidate) (rest : List Candidate)
    (fetched : List UrlValue) (acc : List ReferenceArticle) (message : Str)
    (h : tryScrape env urlObj = .error message) :
    scrapeLoop env (urlObj :: rest) fetched acc
      = { fetched := fetched ++ [urlObj.url],
          outcome := .error (.referenceError "url is not defined".toList) } := by
  unfold scrapeLoop
  rw [h]
  rfl

theorem tryScrape_ok {env : ScrapeEnv} {c : Candidate} {e : ReferenceArticle}
    (h : tryScrape env c = .ok e) :
    ∃ html text, env.axiosGet c.url = .ok html ∧ env.extract html c.url = .ok text
      ∧ e = scrapedEntry c text := by
  unfold tryScrape fetchArticleContent at h
  cases hf : env.axiosGet c.url with
  | error m => simp [hf] at h
  | ok html =>
    simp only [hf] at h
    cases hx : env.extract html c.url with
    | error m => simp [hx] at h
    | ok text =>
      simp only [hx, Except.ok.injEq] at h
      exact ⟨html, text, rfl, hx, h.symm⟩

/-! ## Lemmas for the search filter -/

theorem filterBlogArticles_length_le (lower : Str → Str) (rs : List SearchResult) :
    (filterBlogArticles lower rs).length ≤ 2 := by
  unfold filterBlogArticles
  exact List.length_take_le 2 _

theorem mem_filterBlogArticles {lower : Str → Str} {rs : List SearchResult} {r : SearchResult}
    (h : r ∈ filterBlogArticles lower rs) : r ∈ rs ∧ keepResult lower r = true := by
  unfold filterBlogArticles at h
  have h2 := List.mem_of_mem_take h
  simpa [List.mem_filter] using h2

theorem retryArticles_cases (env : SearchEnv) (q : Str) (b : List SearchResult) :
    retryArticles env q b = b
      ∨ ∃ rs, retryArticles env q b = filterBlogArticles env.toLowerCase rs := by
  unfold retryArticles
  split
  · split
    · exact Or.inr ⟨_, rfl⟩
    · exact Or.inl rfl
  · exact Or.inl rfl

theorem searchGoogleForArticle_ok {env : SearchEnv} {title : Str} {rs : List SearchResult}
    (h : (searchGoogleForArticle env title).outcome = .ok rs) :
    ∃ input, rs = filterBlogArticles env.toLowerCase input := by
  unfold searchGoogleForArticle at h
  simp only at h
  split at h
  · split at h
    · simp only [Except.ok.injEq] at h
      exact ⟨_, h.symm⟩
    · split at h
      · simp only at h
        split at h
        · cases h
        · simp only [Except.ok.injEq] at h
          rcases retryArticles_cases env (simpleQuery title)
            (filterBlogArticles env.toLowerCase (initialSearch env title).2) with h2 | ⟨x, h2⟩
          · exact ⟨_, h ▸ h2⟩
          · exact ⟨x, h ▸ h2⟩
      · cases h
  · simp only [Except.ok.injEq] at h
    exact ⟨_, h.symm⟩

theorem keepResult_inv {lower : Str → Str} {r : SearchResult} (h : keepResult lower r = true) :
    ∃ c cs, r.link = some (c :: cs)
      ∧ excludedDomains.any (fun domain => includes (lower (c :: cs)) domain) = false
      ∧ excludedExtensions.any (fun ext => includes (lower (c :: cs)) ext) = false
      ∧ isHashAnchor (lower (c :: cs)) = false
      ∧ ¬ (lower (c :: cs)).length < 20
      ∧ (hasBlogPattern (lower (c :: cs)) || hasPathStructure (lower (c :: cs))) = true := by
  unfold keepResult at h
  split at h
  · cases h
  · cases h
  · rename_i c cs hl
    simp only at h
    split at h
    · cases h
    · split at h
      · cases h
      · split at h
        · cases h
        · split at h
          · cases h
          · rename_i h1 h2 h3 h4
            exact ⟨c, cs, hl, by simpa using h1, by simpa using h2, by simpa using h3, h4, h⟩

theorem searchGoogleForArticle_all_filtered (env : SearchEnv) (title : Str)
    (h1 : 0 < (initialSearch env title).2.length)
    (h2 : filterBlogArticles env.toLowerCase (initialSearch env title).2 = []) :
    (searchGoogleForArticle env title).outcome = .ok [] := by
  unfold searchGoogleForArticle
  simp [h2, h1]

theorem take_filter_eq (p : SearchResult → Bool) (k : Nat) (rs : List SearchResult) :
    ∃ n, (rs.filter p).take k = (rs.take n).filter p := by
  induction rs generalizing k with
  | nil => exact ⟨0, by simp⟩
  | cons r rest ih =>
    cases k with
    | zero => exact ⟨0, by simp⟩
    | succ k =>
      by_cases hp : p r = true
      · obtain ⟨n, hn⟩ := ih k
        exact ⟨n + 1, by simp [List.filter_cons, hp, hn]⟩
      · obtain ⟨n, hn⟩ := ih (k + 1)
        exact ⟨n + 1, by simp [List.filter_cons, hp, hn]⟩

theorem keepResult_of_link (lower : Str → Str) (r : SearchResult) (c : Char) (cs : Str)
    (hl : r.link = some (c :: cs)) (hp : passesDropFilters (lower (c :: cs)) = true) :
    keepResult lower r
      = (hasBlogPattern (lower (c :: cs)) || hasPathStructure (lower (c :: cs))) := by
  simp only [passesDropFilters, Bool.and_eq_true, Bool.not_eq_true', decide_eq_false_iff_not]
    at hp
  obtain ⟨⟨⟨h1, h2⟩, h3⟩, h4⟩ := hp
  unfold keepResult
  rw [hl]
  simp only [h1, h2, h3, h4, Bool.false_eq_true, if_false]

theorem initialSearch_calls_of_empty (env : SearchEnv) (title : Str)
    (h : (initialSearch env title).2 = []) :
    (initialSearch env title).1 = (primarySearch env title).1 ++ [.googleIt title 20] := by
  unfold initialSearch secondarySearch at h ⊢
  by_cases hp : (primarySearch env title).2.length = 0
  · simp [hp]
  · simp only [hp, if_false] at h
    simp [h] at hp

theorem filterMap_url_sublist (env : ScrapeEnv) (urls : List Candidate) :
    List.Sublist ((urls.filterMap (fun c => (tryScrape env c).toOption)).map (fun e => e.url))
      (urls.map Candidate.url) := by
  induction urls with
  | nil => simp
  | cons c rest ih =>
    cases hts : tryScrape env c with
    | error m =>
      simp only [List.filterMap_cons, hts, Except.toOption, List.map_cons]
      exact ih.cons _
    | ok e =>
      obtain ⟨html, text, -, -, he⟩ := tryScrape_ok hts
      simp only [List.filterMap_cons, hts, Except.toOption, List.map_cons]
      have hu : e.url = c.url := by rw [he]; rfl
      rw [hu]
      exact ih.cons₂ _

/-! ## Main theorems -/

/-- C2, at the failing input: with the two candidates of Scenario A
and a time-out on the first, the handler of `scrapeArticles` itself throws, so
the function fails with a `ReferenceError`, the second candidate is never
fetched, and no reference is returned; were the first page served, both
references would be returned. -/
theorem scrapeArticles_timeout_escapes :
    (scrapeArticles (pagesEnv ["https://a.example/blog/foo".toList]) scenarioCandidates).outcome
        = .error (.referenceError "url is not defined".toList)
    ∧ (scrapeArticles (pagesEnv ["https://a.example/blog/foo".toList]) scenarioCandidates).fetched
        = [.text "https://a.example/blog/foo".toList]
    ∧ (scrapeArticles (pagesEnv ["https://b.example/blog/bar".toList]) scenarioCandidates).outcome
        = .error (.referenceError "url is not defined".toList)
    ∧ (scrapeArticles (pagesEnv []) scenarioCandidates).outcome
        = .ok [scrapedEntry (.obj (mkResult "T1" "https://a.example/blog/foo"))
                ("Page text of https://a.example/blog/foo".toList),
               scrapedEntry (.obj (mkResult "T2" "https://b.example/blog/bar"))
                ("Page text of https://b.example/blog/bar".toList)] := by
  refine ⟨?_, ?_, ?_, ?_⟩ <;> decide

/-- C3, at the failing input: when the provider returns one result
and the filter drops it, `searchGoogleForArticle` returns the empty list
instead of failing; with no result at all it fails with the no-links error. -/
theorem searchGoogleForArticle_returns_empty :
    (initialSearch (offlineEnv [mkResult "Video" "https://www.youtube.com/watch?v=abcdef"] .threw)
        "hello world".toList).2
        = [mkResult "Video" "https://www.youtube.com/watch?v=abcdef"]
    ∧ (searchGoogleForArticle
        (offlineEnv [mkResult "Video" "https://www.youtube.com/watch?v=abcdef"] .threw)
        "hello world".toList).outcome = .ok []
    ∧ (searchGoogleForArticle (offlineEnv [] .threw) "hello world".toList).outcome
        = .error noLinksError := by
  refine ⟨?_, ?_, ?_⟩ <;> decide

/-- C4: a list returned by `searchGoogleForArticle` has at most 2 entries, and
so has every list produced by `filterBlogArticles`. -/
theorem discovery_at_most_two (env : SearchEnv) (title : Str) (rs : List SearchResult)
    (lower : Str → Str) (input : List SearchResult)
    (h : (searchGoogleForArticle env title).outcome = .ok rs) :
    rs.length ≤ 2 ∧ (filterBlogArticles lower input).length ≤ 2 := by
  obtain ⟨x, rfl⟩ := searchGoogleForArticle_ok h
  exact ⟨filterBlogArticles_length_le _ _, filterBlogArticles_length_le _ _⟩

/-- C4, an instance: three qualifying results are cut down to the first two. -/
theorem discovery_at_most_two_witness :
    (searchGoogleForArticle
        (offlineEnv [mkResult "A" "https://a.example/blog/foo",
                     mkResult "B" "https://b.example/blog/bar",
                     mkResult "C" "https://c.example/blog/baz"] .threw)
        "hello world".toList).outcome
      = .ok [mkResult "A" "https://a.example/blog/foo", mkResult "B" "https://b.example/blog/bar"]
    ∧ [mkResult "A" "https://a.example/blog/foo",
        mkResult "B" "https://b.example/blog/bar"].length ≤ 2
    ∧ (filterBlogArticles asciiLower
        [mkResult "A" "https://a.example/blog/foo",
         mkResult "B" "https://b.example/blog/bar",
         mkResult "C" "https://c.example/blog/baz"]).length ≤ 2 :=
  ⟨by decide,
   discovery_at_most_two
    (offlineEnv [mkResult "A" "https://a.example/blog/foo",
                 mkResult "B" "https://b.example/blog/bar",
                 mkResult "C" "https://c.example/blog/baz"] .threw)
    "hello world".toList _ asciiLower _ (by decide)⟩

/-- C5: for a link returned by `searchGoogleForArticle`, the lower-cased link
contains none of the seventeen blocklisted domain names, so the link matches
none of them in any letter case. -/
theorem discovery_excludes_blocklist (env : SearchEnv) (title : Str) (rs : List SearchResult)
    (r : SearchResult) (link domain : Str)
    (h : (searchGoogleForArticle env title).outcome = .ok rs) (hr : r ∈ rs)
    (hl : r.link = some link)
    (hd : domain ∈ ["youtube.com", "youtu.be", "facebook.com", "twitter.com", "x.com",
      "instagram.com", "linkedin.com", "pinterest.com", "reddit.com", "tiktok.com", "vimeo.com",
      "amazon.com", "ebay.com", "wikipedia.org", "google.com", "bing.com",
      "yahoo.com"].map String.toList) :
    includes (env.toLowerCase link) domain = false := by
  obtain ⟨x, rfl⟩ := searchGoogleForArticle_ok h
  obtain ⟨c, cs, h1, h2, -⟩ := keepResult_inv (mem_filterBlogArticles hr).2
  rw [hl] at h1
  cases h1
  have h3 := List.any_eq_false.mp h2 domain hd
  simpa using h3

/-- C5, an instance: of a mixed-case video link and a blog link only the blog
link is returned, and its lower-cased form does not contain `youtube.com`. -/
theorem discovery_excludes_blocklist_witness :
    (searchGoogleForArticle
        (offlineEnv [mkResult "V" "https://www.YouTube.com/watch?v=abcdef",
                     mkResult "B" "https://b.example/blog/bar"] .threw)
        "hello world".toList).outcome = .ok [mkResult "B" "https://b.example/blog/bar"]
    ∧ includes (asciiLower "https://b.example/blog/bar".toList) "youtube.com".toList = false :=
  ⟨by decide,
   discovery_excludes_blocklist
    (offlineEnv [mkResult "V" "https://www.YouTube.com/watch?v=abcdef",
                 mkResult "B" "https://b.example/blog/bar"] .threw)
    "hello world".toList [mkResult "B" "https://b.example/blog/bar"]
    (mkResult "B" "https://b.example/blog/bar") "https://b.example/blog/bar".toList
    "youtube.com".toList (by decide) (by decide) rfl (by decide)⟩

/-- C6: `filterBlogArticles rs` is the first two elements of the qualifying
sub-list of `rs`: it is an initial segment of that sub-list, of length
`min 2` of its length, a sub-sequence of `rs`, and every returned element is an
element of `rs` itself (link not lower-cased) that the callback keeps. -/
theorem filterBlogArticles_first_two (lower : Str → Str) (rs : List SearchResult) :
    filterBlogArticles lower rs = (rs.filter (keepResult lower)).take 2
    ∧ List.IsPrefix (filterBlogArticles lower rs) (rs.filter (keepResult lower))
    ∧ (filterBlogArticles lower rs).length = min 2 (rs.filter (keepResult lower)).length
    ∧ List.Sublist (filterBlogArticles lower rs) rs
    ∧ (∀ r, r ∈ filterBlogArticles lower rs → r ∈ rs ∧ keepResult lower r = true)
    ∧ (∃ n, filterBlogArticles lower rs = (rs.take n).filter (keepResult lower))
    ∧ filterBlogArticles asciiLower
        [mkResult "V" "https://www.youtube.com/watch?v=abcdef",
         mkResult "A" "HTTPS://A.example/Blog/Foo",
         mkResult "B" "https://b.example/blog/bar",
         mkResult "C" "https://c.example/blog/baz"]
        = [mkResult "A" "HTTPS://A.example/Blog/Foo",
           mkResult "B" "https://b.example/blog/bar"] := by
  refine ⟨rfl, List.take_prefix _ _, List.length_take _ _, ?_,
    fun r hr => mem_filterBlogArticles hr, ?_, by decide⟩
  · exact (List.take_sublist _ _).trans (List.filter_sublist _)
  · exact take_filter_eq (keepResult lower) 2 rs

/-- C7, at the failing input: the link `https://example-site.org`, a scheme and
a host without any path, passes the four drop filters; it contains none of
`/blog/`, `/article/`, `/post/`, `/news/`, `/story/`, `/entry/`, has no
`/dddd/dd/` segment and does not end with `.html`; it has no path segment; its
only two `/` are those of `https://`; and yet `hasPathStructure` holds, the
callback keeps it and `filterBlogArticles` returns it. -/
theorem keepResult_bare_host_kept :
    passesDropFilters (asciiLower "https://example-site.org".toList) = true
    ∧ (∀ p ∈ ["/blog/", "/article/", "/post/", "/news/", "/story/", "/entry/"].map
          String.toList,
        includes (asciiLower "https://example-site.org".toList) p = false)
    ∧ matchesDateSegment (asciiLower "https://example-site.org".toList) = false
    ∧ endsWith (asciiLower "https://example-site.org".toList) ".html".toList = false
    ∧ hasBlogPattern (asciiLower "https://example-site.org".toList) = false
    ∧ specPathSegments "https://example-site.org".toList = []
    ∧ (asciiLower "https://example-site.org".toList).count '/' = 2
    ∧ hasPathStructure (asciiLower "https://example-site.org".toList) = true
    ∧ keepResult asciiLower (mkResult "Home" "https://example-site.org") = true
    ∧ filterBlogArticles asciiLower [mkResult "Home" "https://example-site.org"]
        = [mkResult "Home" "https://example-site.org"]
    ∧ ¬ (keepResult asciiLower (mkResult "Home" "https://example-site.org") = true
          ↔ (hasBlogPattern (asciiLower "https://example-site.org".toList) = true
              ∨ 2 ≤ (specPathSegments "https://example-site.org".toList).length)) := by
  refine ⟨?_, ?_, ?_, ?_, ?_, ?_, ?_, ?_, ?_, ?_, ?_⟩ <;> decide

/-- What the callback computes after the drop filters: a non-empty link whose
lower-cased form passes them is kept if and only if that form matches a
blog/article pattern or contains at least two `/` characters, the two of
`scheme://` included. -/
theorem keepResult_iff_pattern_or_slashes (lower : Str → Str) (r : SearchResult) (c : Char)
    (cs : Str) (hl : r.link = some (c :: cs))
    (hp : passesDropFilters (lower (c :: cs)) = true) :
    (keepResult lower r = true
      ↔ (hasBlogPattern (lower (c :: cs)) = true ∨ 2 ≤ (lower (c :: cs)).count '/'))
    ∧ (filterBlogArticles lower [r] = [r]
      ↔ (hasBlogPattern (lower (c :: cs)) = true ∨ 2 ≤ (lower (c :: cs)).count '/'))
    ∧ (hasBlogPattern (lower (c :: cs)) = false → (lower (c :: cs)).count '/' < 2 →
        filterBlogArticles lower [r] = []) := by
  have hk := keepResult_of_link lower r c cs hl hp
  have hiff : keepResult lower r = true
      ↔ (hasBlogPattern (lower (c :: cs)) = true ∨ 2 ≤ (lower (c :: cs)).count '/') := by
    rw [hk]
    simp [hasPathStructure]
  refine ⟨hiff, ?_, ?_⟩
  · rw [← hiff]
    unfold filterBlogArticles
    by_cases hkeep : keepResult lower r = true
    · simp [hkeep]
    · simp [hkeep]
  · intro h1 h2
    have hno : ¬ keepResult lower r = true := by
      rw [hiff]
      rintro (h | h)
      · rw [h1] at h
        cases h
      · omega
    unfold filterBlogArticles
    simp [hno]

/-- An instance of the slash count: a host-relative link of one path segment
has one `/`, no pattern, and is rejected; a link with a `/blog/` segment is
kept. -/
theorem keepResult_iff_pattern_or_slashes_witness :
    (mkResult "P" "example-site.org/some-page-here").link
        = some ('e' :: "xample-site.org/some-page-here".toList)
    ∧ passesDropFilters (asciiLower ('e' :: "xample-site.org/some-page-here".toList)) = true
    ∧ filterBlogArticles asciiLower [mkResult "P" "example-site.org/some-page-here"] = []
    ∧ keepResult asciiLower (mkResult "T1" "https://a.example/blog/foo") = true :=
  ⟨rfl, by decide,
   (keepResult_iff_pattern_or_slashes asciiLower (mkResult "P" "example-site.org/some-page-here")
      'e' "xample-site.org/some-page-here".toList rfl (by decide)).2.2 (by decide) (by decide),
   by decide⟩

/-- C8, counterexample: for the topic `hello world` both searches
return nothing, the simplified query equals the topic, and no retry is made
although one would have found a link; the call fails after one provider call. -/
theorem searchGoogleForArticle_no_retry :
    (initialSearch (offlineEnv [] (.array [mkResult "A" "https://a.example/blog/foo"]))
        "hello world".toList).2 = []
    ∧ simpleQuery "hello world".toList = "hello world".toList
    ∧ (searchGoogleForArticle (offlineEnv [] (.array [mkResult "A" "https://a.example/blog/foo"]))
        "hello world".toList).calls = [.googleIt "hello world".toList 20]
    ∧ ProviderCall.googleIt (simpleQuery "hello world".toList) 10
        ∉ (searchGoogleForArticle
            (offlineEnv [] (.array [mkResult "A" "https://a.example/blog/foo"]))
            "hello world".toList).calls
    ∧ (searchGoogleForArticle (offlineEnv [] (.array [mkResult "A" "https://a.example/blog/foo"]))
        "hello world".toList).outcome = .error noLinksError := by
  refine ⟨?_, ?_, ?_, ?_, ?_⟩ <;> decide

/-- C8, as amended: when the primary and the secondary search leave `results`
empty, the simplified query is the first three space-separated words of the
topic longer than 3 characters, joined by single spaces; if it is non-empty and
differs from the topic, `google-it` is called exactly once more, with that
query, and the results of that call go through `filterBlogArticles` (an empty
filtered list, or a failed call, gives the no-links error); otherwise no retry
is made and the call fails with the no-links error. -/
theorem searchGoogleForArticle_retry (env : SearchEnv) (title : Str)
    (h : (initialSearch env title).2 = []) :
    simpleQuery title
        = List.intercalate [' '] (((split ' ' title).filter (fun w => 3 < w.length)).take 3)
    ∧ (simpleQuery title ≠ [] ∧ simpleQuery title ≠ title →
        (searchGoogleForArticle env title).calls
            = (primarySearch env title).1 ++ [.googleIt title 20]
                ++ [.googleIt (simpleQuery title) 10]
        ∧ (searchGoogleForArticle env title).outcome
            = match env.googleIt (simpleQuery title) 10 with
              | .array rs =>
                if (filterBlogArticles env.toLowerCase rs).length = 0 then .error noLinksError
                else .ok (filterBlogArticles env.toLowerCase rs)
              | _ => .error noLinksError)
    ∧ (¬ (simpleQuery title ≠ [] ∧ simpleQuery title ≠ title) →
        (searchGoogleForArticle env title).calls
            = (primarySearch env title).1 ++ [.googleIt title 20]
        ∧ (searchGoogleForArticle env title).outcome = .error noLinksError) := by
  have hc := initialSearch_calls_of_empty env title h
  refine ⟨rfl, ?_, ?_⟩
  · intro hq
    unfold searchGoogleForArticle
    simp only [h, hc, filterBlogArticles, List.filter_nil, List.take_nil, List.length_nil,
      if_true, Nat.lt_irrefl, if_false, hq, and_self, retryArticles, true_and,
      gt_iff_lt, not_false_eq_true, ne_eq]
    cases hg : env.googleIt (simpleQuery title) 10 with
    | threw => simp
    | notArray => simp
    | array rs =>
      by_cases hrs : 0 < rs.length
      · simp [hrs]
      · have : rs = [] := by
          cases rs with
          | nil => rfl
          | cons a as => simp at hrs
        subst this
        simp
  · intro hq
    unfold searchGoogleForArticle
    simp only [h, hc, filterBlogArticles, List.filter_nil, List.take_nil, List.length_nil,
      if_true, Nat.lt_irrefl, if_false, hq, and_self, gt_iff_lt]

/-- C8, an instance: for a seven-word topic the retry is the single call with
the query `great person today`, and its one blog link is returned. -/
theorem searchGoogleForArticle_retry_witness :
    (initialSearch (offlineEnv [] (.array [mkResult "A" "https://a.example/blog/foo"]))
        "how to be a great person today".toList).2 = []
    ∧ simpleQuery "how to be a great person today".toList = "great person today".toList
    ∧ (searchGoogleForArticle (offlineEnv [] (.array [mkResult "A" "https://a.example/blog/foo"]))
        "how to be a great person today".toList).calls
        = [.googleIt "how to be a great person today".toList 20,
           .googleIt "great person today".toList 10]
    ∧ (searchGoogleForArticle (offlineEnv [] (.array [mkResult "A" "https://a.example/blog/foo"]))
        "how to be a great person today".toList).outcome
        = .ok [mkResult "A" "https://a.example/blog/foo"] :=
  have hw := searchGoogleForArticle_retry
    (offlineEnv [] (.array [mkResult "A" "https://a.example/blog/foo"]))
    "how to be a great person today".toList (by decide)
  ⟨by decide, by decide, (hw.2.1 (by decide)).1.trans (by decide),
   (hw.2.1 (by decide)).2.trans (by decide)⟩

/-- C9: when `scrapeArticles` returns, its result holds one reference per
candidate whose fetch and extraction succeeded, in the candidates' order; the
URLs of the references are a sub-sequence of the candidates' URLs; each
reference carries the URL value of its own candidate, which is the link for a
candidate object with a non-empty link, and the first 5000 characters of the
text extracted from the page fetched at that URL; for a bare string the URL
value is the built-in `link` method and never the string. -/
theorem scrapeArticles_order (env : ScrapeEnv) (urls : List Candidate)
    (refs : List ReferenceArticle) (h : (scrapeArticles env urls).outcome = .ok refs) :
    refs = urls.filterMap (fun c => (tryScrape env c).toOption)
    ∧ List.Sublist (refs.map (fun e => e.url)) (urls.map Candidate.url)
    ∧ (∀ c e, tryScrape env c = .ok e →
        e.url = c.url ∧ e.title = some c.title
        ∧ ∃ html text, env.axiosGet c.url = .ok html ∧ env.extract html c.url = .ok text
            ∧ e.content = text.take 5000)
    ∧ (∀ (r : SearchResult) (a : Char) (link : Str), r.link = some (a :: link) →
        (Candidate.obj r).url = .text (a :: link))
    ∧ (∀ s : Str, (Candidate.str s).url = .linkMethod ∧ (Candidate.str s).url ≠ .text s) := by
  have h1 := (scrapeLoop_ok env urls [] [] refs h).1
  simp only [List.nil_append] at h1
  refine ⟨h1, ?_, ?_, ?_, fun s => ⟨rfl, fun hs => by cases hs⟩⟩
  · rw [h1]
    exact filterMap_url_sublist env urls
  · intro c e hts
    obtain ⟨html, text, hf, hx, he⟩ := tryScrape_ok hts
    subst he
    exact ⟨rfl, rfl, html, text, hf, hx, rfl⟩
  · intro r a link hl
    simp [Candidate.url, hl]

/-- C9, an instance: the two candidates of Scenario A, both served, give the
two references in the same order with their own URLs. -/
theorem scrapeArticles_order_witness :
    (scrapeArticles (pagesEnv []) scenarioCandidates).outcome
        = .ok [scrapedEntry (.obj (mkResult "T1" "https://a.example/blog/foo"))
                ("Page text of https://a.example/blog/foo".toList),
               scrapedEntry (.obj (mkResult "T2" "https://b.example/blog/bar"))
                ("Page text of https://b.example/blog/bar".toList)]
    ∧ List.Sublist
        ([scrapedEntry (.obj (mkResult "T1" "https://a.example/blog/foo"))
                ("Page text of https://a.example/blog/foo".toList),
          scrapedEntry (.obj (mkResult "T2" "https://b.example/blog/bar"))
                ("Page text of https://b.example/blog/bar".toList)].map (fun e => e.url))
        (scenarioCandidates.map Candidate.url) :=
  ⟨by decide, (scrapeArticles_order (pagesEnv []) scenarioCandidates _ (by decide)).2.1⟩

/-- C10: the content stored for a candidate whose extracted text is `t` is the
first 5000 characters of `t`, which is `t` itself when `t` has at most 5000
characters, and every reference returned by `scrapeArticles` has content of
length at most 5000. -/
theorem scraped_content_capped (env : ScrapeEnv) (urls : List Candidate)
    (refs : List ReferenceArticle) (r : ReferenceArticle) (urlObj : Candidate) (t : Str)
    (h : (scrapeArticles env urls).outcome = .ok refs) (hr : r ∈ refs) :
    (scrapedEntry urlObj t).content = t.take 5000
    ∧ (t.length ≤ 5000 → (scrapedEntry urlObj t).content = t)
    ∧ (scrapedEntry urlObj t).content.length = min 5000 t.length
    ∧ r.content.length ≤ 5000 := by
  refine ⟨rfl, fun ht => List.take_of_length_le ht, List.length_take _ _, ?_⟩
  have h1 := (scrapeLoop_ok env urls [] [] refs h).1
  simp only [List.nil_append] at h1
  rw [h1, List.mem_filterMap] at hr
  obtain ⟨c, -, hc⟩ := hr
  cases hts : tryScrape env c with
  | error m => simp [hts, Except.toOption] at hc
  | ok e =>
    simp only [hts, Except.toOption, Option.some.injEq] at hc
    subst hc
    obtain ⟨html, text, -, -, he⟩ := tryScrape_ok hts
    subst he
    exact List.length_take_le 5000 text

/-- C10, an instance: a text of 6000 characters is stored as its first 5000, and
the reference scraped from a served page is within the cap. -/
theorem scraped_content_capped_witness :
    (scrapeArticles (pagesEnv []) [.obj (mkResult "T1" "https://a.example/blog/foo")]).outcome
        = .ok [scrapedEntry (.obj (mkResult "T1" "https://a.example/blog/foo"))
                ("Page text of https://a.example/blog/foo".toList)]
    ∧ (scrapedEntry (.obj (mkResult "T1" "https://a.example/blog/foo"))
        (List.replicate 6000 'a')).content = (List.replicate 6000 'a').take 5000
    ∧ (scrapedEntry (.obj (mkResult "T1" "https://a.example/blog/foo"))
        (List.replicate 6000 'a')).content.length = min 5000 (List.replicate 6000 'a').length
    ∧ (scrapedEntry (.obj (mkResult "T1" "https://a.example/blog/foo"))
        ("Page text of https://a.example/blog/foo".toList)).content.length ≤ 5000 :=
  have hw := scraped_content_capped (pagesEnv [])
    [.obj (mkResult "T1" "https://a.example/blog/foo")] _
    (scrapedEntry (.obj (mkResult "T1" "https://a.example/blog/foo"))
      ("Page text of https://a.example/blog/foo".toList))
    (.obj (mkResult "T1" "https://a.example/blog/foo")) (List.replicate 6000 'a') (by decide)
    (List.mem_singleton.mpr rfl)
  ⟨by decide, hw.1, hw.2.2.1, hw.2.2.2⟩

/-! ## Lemmas for extractMainContent -/

theorem dropWhile_head_not_space (s : Str) (c : Char)
    (h : (s.dropWhile isSpace).head? = some c) : isSpace c = false := by
  have h2 := List.head?_dropWhile_not isSpace s
  rw [h] at h2
  exact h2

theorem dropWhile_eq_self_of_head (s : Str) (h : ∀ c, s.head? = some c → isSpace c = false) :
    s.dropWhile isSpace = s := by
  cases s with
  | nil => rfl
  | cons a as =>
    have ha : isSpace a = false := h a rfl
    simp [List.dropWhile_cons, ha]

theorem trimEnd_prefix (s : Str) : ∃ u, s = trimEnd s ++ u := by
  have h : s.reverse.dropWhile isSpace <:+ s.reverse := List.dropWhile_suffix isSpace
  obtain ⟨t, ht⟩ := h
  refine ⟨t.reverse, ?_⟩
  have h2 := congrArg List.reverse ht
  simp only [List.reverse_append, List.reverse_reverse] at h2
  unfold trimEnd
  exact h2.symm

theorem trimEnd_last_not_space (s : Str) (c : Char) (h : (trimEnd s).getLast? = some c) :
    isSpace c = false := by
  unfold trimEnd at h
  rw [List.getLast?_reverse] at h
  exact dropWhile_head_not_space _ _ h

theorem trim_trimmed (s : Str) : Trimmed (trim s) := by
  constructor
  · intro c hc
    unfold trim at hc
    obtain ⟨u, hu⟩ := trimEnd_prefix (trimStart s)
    cases hte : trimEnd (trimStart s) with
    | nil => rw [hte] at hc; cases hc
    | cons a as =>
      rw [hte] at hc hu
      simp only [List.head?_cons, Option.some.injEq] at hc
      subst hc
      apply dropWhile_head_not_space s
      unfold trimStart at hu
      rw [hu]
      rfl
  · intro c hc
    exact trimEnd_last_not_space _ _ hc

theorem trim_of_trimmed (s : Str) (h : Trimmed s) : trim s = s := by
  unfold trim trimStart trimEnd
  rw [dropWhile_eq_self_of_head s h.1]
  have h2 : s.reverse.dropWhile isSpace = s.reverse := by
    apply dropWhile_eq_self_of_head
    intro c hc
    rw [List.head?_reverse] at hc
    exact h.2 c hc
  rw [h2, List.reverse_reverse]

theorem trim_trim (s : Str) : trim (trim s) = trim s :=
  trim_of_trimmed _ (trim_trimmed s)

theorem collapseFrom_space_eq (b : Bool) (s : Str) (c : Char) (hc : c ∈ collapseFrom b s)
    (hs : isSpace c = true) : c = ' ' := by
  induction s generalizing b with
  | nil => simp [collapseFrom] at hc
  | cons a as ih =>
    unfold collapseFrom at hc
    by_cases ha : isSpace a = true
    · simp only [ha, if_true] at hc
      cases b with
      | true => exact ih true (by simpa using hc)
      | false =>
        simp only [Bool.false_eq_true, if_false, List.mem_cons] at hc
        rcases hc with rfl | hc
        · rfl
        · exact ih true hc
    · simp only [ha, Bool.false_eq_true, if_false, List.mem_cons] at hc
      rcases hc with rfl | hc
      · exact absurd hs ha
      · exact ih false hc

theorem collapseFrom_head (b : Bool) (s : Str) (c : Char)
    (hc : (collapseFrom b s).head? = some c) (hb : b = true) : isSpace c = false := by
  induction s with
  | nil => simp [collapseFrom] at hc
  | cons a as ih =>
    subst hb
    unfold collapseFrom at hc
    by_cases ha : isSpace a = true
    · simp only [ha, if_true] at hc
      exact ih hc
    · simp only [ha, Bool.false_eq_true, if_false, List.head?_cons, Option.some.injEq] at hc
      subst hc
      simpa using ha

theorem collapseFrom_chain (b : Bool) (s : Str) :
    List.Chain' (fun x y => ¬ (isSpace x = true ∧ isSpace y = true)) (collapseFrom b s) := by
  induction s generalizing b with
  | nil => simp [collapseFrom]
  | cons a as ih =>
    unfold collapseFrom
    by_cases ha : isSpace a = true
    · simp only [ha, if_true]
      cases b with
      | true => exact ih true
      | false =>
        simp only [Bool.false_eq_true, if_false]
        rw [List.chain'_cons']
        refine ⟨?_, ih true⟩
        intro y hy
        have := collapseFrom_head true as y hy rfl
        simp [this]
    · simp only [ha, Bool.false_eq_true, if_false]
      rw [List.chain'_cons']
      refine ⟨?_, ih false⟩
      intro y _
      simp [ha]

theorem collapseFrom_filter (b : Bool) (s : Str) :
    (collapseFrom b s).filter (fun c => !isSpace c) = s.filter (fun c => !isSpace c) := by
  induction s generalizing b with
  | nil => simp [collapseFrom]
  | cons a as ih =>
    unfold collapseFrom
    by_cases ha : isSpace a = true
    · cases b with
      | true => simp [ha, ih]
      | false =>
        have hsp : isSpace ' ' = true := by decide
        simp [ha, ih, hsp]
    · simp [ha, ih]

theorem collapseFrom_fixed (b : Bool) (t : Str)
    (h1 : List.Chain' (fun x y => ¬ (isSpace x = true ∧ isSpace y = true)) t)
    (h2 : ∀ c ∈ t, isSpace c = true → c = ' ')
    (h3 : b = true → ∀ c, t.head? = some c → isSpace c = false) :
    collapseFrom b t = t := by
  induction t generalizing b with
  | nil => rfl
  | cons a as ih =>
    rw [List.chain'_cons'] at h1
    unfold collapseFrom
    by_cases ha : isSpace a = true
    · have hb : b = false := by
        cases b with
        | false => rfl
        | true =>
          have := h3 rfl a rfl
          rw [ha] at this
          cases this
      subst hb
      have haeq : a = ' ' := h2 a (List.mem_cons_self _ _) ha
      simp only [ha, if_true, Bool.false_eq_true, if_false]
      rw [ih true h1.2 (fun c hc => h2 c (List.mem_cons_of_mem _ hc))]
      · rw [haeq]
      · intro _ c hc
        have := h1.1 c hc
        simpa [ha] using this
    · simp only [ha, Bool.false_eq_true, if_false]
      rw [ih false h1.2 (fun c hc => h2 c (List.mem_cons_of_mem _ hc))]
      intro hf
      cases hf

theorem collapseFrom_append_single (b : Bool) (s : Str) (c : Char) (hc : isSpace c = false) :
    collapseFrom b (s ++ [c]) = collapseFrom b s ++ [c] := by
  induction s generalizing b with
  | nil => simp [collapseFrom, hc]
  | cons a as ih =>
    simp only [List.cons_append]
    unfold collapseFrom
    by_cases ha : isSpace a = true
    · cases b with
      | true => simp [ha, ih]
      | false => simp [ha, ih]
    · simp [ha, ih]

theorem replaceSpaceRuns_trimmed (s : Str) (h : Trimmed s) : Trimmed (replaceSpaceRuns s) := by
  unfold replaceSpaceRuns
  constructor
  · intro c hc
    cases s with
    | nil => simp [collapseFrom] at hc
    | cons a as =>
      have ha : isSpace a = false := h.1 a rfl
      unfold collapseFrom at hc
      simp only [ha, Bool.false_eq_true, if_false, List.head?_cons, Option.some.injEq] at hc
      subst hc
      exact ha
  · intro c hc
    rcases List.eq_nil_or_concat s with rfl | ⟨t, d, rfl⟩
    · simp [collapseFrom] at hc
    · rw [List.concat_eq_append] at h hc
      have hd : isSpace d = false := h.2 d (by simp)
      rw [collapseFrom_append_single false t d hd] at hc
      simp only [List.getLast?_append, List.getLast?_singleton, Option.or,
        Option.some.injEq] at hc
      subst hc
      exact hd

theorem replaceBlankLinesFuel_of_no_newline (n : Nat) (s : Str) (h : '\n' ∉ s) :
    replaceBlankLinesFuel n s = s := by
  induction n generalizing s with
  | zero => rfl
  | succ n ih =>
    cases s with
    | nil => rfl
    | cons a as =>
      have ha : a ≠ '\n' := fun e => h (by simp [e])
      have has : '\n' ∉ as := fun e => h (List.mem_cons_of_mem _ e)
      unfold replaceBlankLinesFuel
      simp [ha, ih as has]

theorem replaceSpaceRuns_no_newline (s : Str) : '\n' ∉ replaceSpaceRuns s := by
  intro h
  have := collapseFrom_space_eq false s '\n' h (by decide)
  exact absurd this (by decide)

theorem cleanUp_of_trimmed (s : Str) (h : Trimmed s) : cleanUp s = replaceSpaceRuns s := by
  unfold cleanUp replaceBlankLines
  rw [replaceBlankLinesFuel_of_no_newline _ _ (replaceSpaceRuns_no_newline s)]
  exact trim_of_trimmed _ (replaceSpaceRuns_trimmed s h)

theorem selectorLoop_trimmed (page : Page) (sels : List Str) :
    Trimmed (selectorLoop page sels) := by
  induction sels with
  | nil =>
    constructor
    · intro c hc
      cases hc
    · intro c hc
      cases hc
  | cons sel rest ih =>
    unfold selectorLoop
    split
    · split
      · exact trim_trimmed _
      · exact ih
    · exact ih

theorem selectContent_trimmed (page : Page) : Trimmed (selectContent page) := by
  unfold selectContent
  split
  · exact trim_trimmed _
  · split
    · exact trim_trimmed _
    · exact selectorLoop_trimmed _ _

theorem selectorLoop_eq_find (page : Page) (sels : List Str) :
    selectorLoop page sels
      = match sels.find? (selectorQualifies page) with
        | some selector => trim ((page.firstText selector).getD [])
        | none => [] := by
  induction sels with
  | nil => rfl
  | cons sel rest ih =>
    unfold selectorLoop
    cases hsel : page.firstText sel with
    | none =>
      simp only [List.find?_cons, selectorQualifies, hsel]
      exact ih
    | some text =>
      by_cases hlen : (trim text).length > 200
      · simp [List.find?_cons, selectorQualifies, hsel, hlen]
      · simp only [hlen, if_false, List.find?_cons, selectorQualifies, hsel, decide_False]
        exact ih

theorem selectorLoop_long (page : Page) (sels : List Str) (sel : Str)
    (h : sels.find? (selectorQualifies page) = some sel) :
    200 < (trim ((page.firstText sel).getD [])).length := by
  have hq := List.find?_some h
  unfold selectorQualifies at hq
  cases hsel : page.firstText sel with
  | none => simp [hsel] at hq
  | some text => simpa [hsel] using hq

theorem replaceBlankLinesFuel_enough (n : Nat) :
    ∀ (m : Nat) (s : Str), s.length ≤ n → s.length ≤ m →
      replaceBlankLinesFuel n s = replaceBlankLinesFuel m s := by
  induction n with
  | zero =>
    intro m s hn _
    have hs : s = [] := List.length_eq_zero.mp (Nat.le_zero.mp hn)
    subst hs
    cases m <;> rfl
  | succ n ih =>
    intro m s hn hm
    cases s with
    | nil => cases m <;> rfl
    | cons c cs =>
      cases m with
      | zero => simp at hm
      | succ m =>
        simp only [List.length_cons, Nat.add_le_add_iff_right] at hn hm
        unfold replaceBlankLinesFuel
        by_cases hc : c = '\n'
        · simp only [hc, if_true]
          cases hb : blankLineEnd cs with
          | none => simp only [ih m cs hn hm]
          | some k =>
            have hk : (cs.drop k).length ≤ cs.length := by simp
            simp only [ih m (cs.drop k) (hk.trans hn) (hk.trans hm)]
        · simp only [hc, if_false, ih m cs hn hm]

set_option maxRecDepth 100000 in
/-- C18, counterexample: with an `article` element whose text is blank and a
`main` element of 201 characters, the selection is the empty text of the
article, not the text of `main`; and a `main` element whose trimmed text has
202 characters, 200 of them one run of spaces, is selected although its
normalized text has 3 characters. -/
theorem selectContent_article_blank :
    selectContent (pageWith [("article", "   ".toList), ("main", List.replicate 201 'a'),
        ("body", "page".toList)]) = []
    ∧ selectContent (pageWith [("article", "   ".toList), ("main", List.replicate 201 'a'),
        ("body", "page".toList)]) ≠ List.replicate 201 'a'
    ∧ cleanUp ('a' :: List.replicate 200 ' ' ++ ['b']) = "a b".toList
    ∧ selectContent (pageWith [("main", 'a' :: List.replicate 200 ' ' ++ ['b']),
        ("body", "page".toList)]) = 'a' :: List.replicate 200 ' ' ++ ['b']
    ∧ selectContent (pageWith [("main", 'a' :: List.replicate 200 ' ' ++ ['b']),
        ("body", "page".toList)]) ≠ trim "page".toList := by
  refine ⟨?_, ?_, ?_, ?_, ?_⟩ <;> decide

/-- C18, as amended: `extractMainContent` cleans up the text selected in this
fixed priority: the trimmed text of the first `article` element whenever one is
present, empty or not; if none is present, the trimmed text of the first of
`main`, `.content`, `.post-content`, `.entry-content`, `.article-content`,
`#content`, `.main-content`, `[role="main"]` (in that order) whose element
exists with a trimmed text, not yet normalized, longer than 200 characters; and
if none qualifies, the trimmed text of `body`. -/
theorem selectContent_priority (load : Str → Page) (html : Str) (url : UrlValue) :
    selectContent (load html) = specSelect (load html)
    ∧ extractMainContent load html url = cleanUp (specSelect (load html))
    ∧ contentSelectors = ["main", ".content", ".post-content", ".entry-content",
        ".article-content", "#content", ".main-content", "[role=\"main\"]"].map String.toList := by
  have h : selectContent (load html) = specSelect (load html) := by
    unfold selectContent specSelect
    cases harticle : (load html).firstText "article".toList with
    | some text => rfl
    | none =>
      simp only
      rw [selectorLoop_eq_find]
      cases hf : contentSelectors.find? (selectorQualifies (load html)) with
      | none => simp
      | some sel =>
        have hlong := selectorLoop_long (load html) contentSelectors sel hf
        simp only
        have hne : trim (((load html).firstText sel).getD []) ≠ [] := by
          intro he
          rw [he] at hlong
          simp at hlong
        have hnl : ¬ (trim (((load html).firstText sel).getD [])).length < 200 := by omega
        simp [hne, hnl]
  refine ⟨h, ?_, rfl⟩
  unfold extractMainContent
  rw [h]

/-- C19: the string returned by `extractMainContent` is the selected text with
every maximal run of white space replaced by one space; it has no leading and
no trailing white space, no two adjacent white-space characters, no white space
other than the space, the characters other than white space of the selected
text in their order, and the clean-up step leaves it unchanged. -/
theorem extractMainContent_normalized (load : Str → Page) (html : Str) (url : UrlValue) :
    extractMainContent load html url = replaceSpaceRuns (selectContent (load html))
    ∧ (∀ c, (extractMainContent load html url).head? = some c → isSpace c = false)
    ∧ (∀ c, (extractMainContent load html url).getLast? = some c → isSpace c = false)
    ∧ List.Chain' (fun x y => ¬ (isSpace x = true ∧ isSpace y = true))
        (extractMainContent load html url)
    ∧ (∀ c ∈ extractMainContent load html url, isSpace c = true → c = ' ')
    ∧ (extractMainContent load html url).filter (fun c => !isSpace c)
        = (selectContent (load html)).filter (fun c => !isSpace c)
    ∧ cleanUp (extractMainContent load html url) = extractMainContent load html url
    ∧ cleanUp "  Two\n\n lines \t here  ".toList = "Two lines here".toList := by
  have hsel := selectContent_trimmed (load html)
  have he : extractMainContent load html url = replaceSpaceRuns (selectContent (load html)) :=
    cleanUp_of_trimmed _ hsel
  have ht := replaceSpaceRuns_trimmed _ hsel
  rw [he]
  refine ⟨rfl, ht.1, ht.2, collapseFrom_chain false _, ?_, collapseFrom_filter false _, ?_,
    by decide⟩
  · intro c hc hs
    exact collapseFrom_space_eq false _ c hc hs
  · rw [cleanUp_of_trimmed _ ht]
    unfold replaceSpaceRuns
    apply collapseFrom_fixed
    · exact collapseFrom_chain false _
    · intro c hc hs
      exact collapseFrom_space_eq false _ c hc hs
    · intro hf
      cases hf

/-! ## Lemmas for the response extraction -/

theorem longString_some {v : JSValue} {s : Str} (h : longString v = some s) :
    v = .string s ∧ 100 < s.length := by
  cases v with
  | string t =>
    simp only [longString] at h
    by_cases hlen : t.length > 100
    · simp only [hlen, if_true, Option.some.injEq] at h
      subst h
      exact ⟨rfl, hlen⟩
    · simp [hlen] at h
  | _ => simp [longString] at h

theorem stringsWithin_succ_self (levels : Nat) (s : Str) :
    stringsWithin levels (.string s) = [s] := by
  cases levels <;> rfl

theorem mem_stringsWithin_of_entry (levels : Nat) (v : JSValue) (e : Str × JSValue) (s : Str)
    (hv : ∀ t, v ≠ .string t) (he : e ∈ v.entries) (hs : s ∈ stringsWithin levels e.2) :
    s ∈ stringsWithin (levels + 1) v := by
  cases v with
  | string t => exact absurd rfl (hv t)
  | undefined => simp [JSValue.entries] at he
  | null => simp [JSValue.entries] at he
  | bool b => simp [JSValue.entries] at he
  | number n => simp [JSValue.entries] at he
  | array items =>
    simp only [stringsWithin, List.mem_flatMap]
    exact ⟨e, he, hs⟩
  | object fields =>
    simp only [stringsWithin, List.mem_flatMap]
    exact ⟨e, he, hs⟩

theorem findTextFrom_sound (levels : Nat) :
    ∀ (v : JSValue) (s : Str), findTextFrom levels v = some s →
      100 < s.length ∧ s ∈ stringsWithin levels v := by
  induction levels with
  | zero =>
    intro v s h
    simp [findTextFrom] at h
  | succ levels ih =>
    intro v s h
    unfold findTextFrom at h
    cases hl : longString v with
    | some t =>
      rw [hl] at h
      simp only [Option.some.injEq] at h
      subst h
      obtain ⟨hv, hlen⟩ := longString_some hl
      subst hv
      exact ⟨hlen, by simp [stringsWithin]⟩
    | none =>
      rw [hl] at h
      simp only at h
      obtain ⟨e, he, hfound⟩ := List.exists_of_findSome?_eq_some h
      have hv : ∀ t, v ≠ .string t := by
        intro t ht
        subst ht
        simp [JSValue.entries] at he
      split at hfound
      · rename_i t hkey
        simp only [Option.some.injEq] at hfound
        subst hfound
        have hls : longString e.2 = some t := by
          split at hkey
          · exact hkey
          · cases hkey
        obtain ⟨hstr, hlen⟩ := longString_some hls
        refine ⟨hlen, mem_stringsWithin_of_entry levels v e t hv he ?_⟩
        rw [hstr, stringsWithin_succ_self]
        simp
      · obtain ⟨hlen, hmem⟩ := ih e.2 s hfound
        exact ⟨hlen, mem_stringsWithin_of_entry levels v e s hv he hmem⟩

theorem findTextFrom_long_string (levels : Nat) (s : Str) (h : 100 < s.length) :
    findTextFrom (levels + 1) (.string s) = some s := by
  simp [findTextFrom, longString, h]

theorem findText_of_long_field (fields : List (Str × JSValue)) (key s : Str)
    (hmem : (key, JSValue.string s) ∈ fields) (hlen : 100 < s.length) :
    (findText (.object fields)).isSome = true := by
  unfold findText findTextFrom
  simp only [longString, JSValue.entries]
  rw [List.findSome?_isSome_iff]
  refine ⟨(key, .string s), hmem, ?_⟩
  simp only
  split
  · rfl
  · rw [findTextFrom_long_string 4 s hlen]
    rfl

theorem partText_of_fragment (part : JSValue) (frag : Option Str)
    (h : part.get "text".toList = some (fragmentValue frag)) :
    partText part = .ok (.string (frag.getD [])) := by
  unfold partText JSValue.read
  rw [h]
  cases frag with
  | none => rfl
  | some s =>
    cases s with
    | nil => rfl
    | cons a as => rfl

theorem mapParts_of_fragments (parts : List JSValue) (frags : List (Option Str))
    (h : List.Forall₂ (fun part frag => part.get "text".toList = some (fragmentValue frag))
      parts frags) :
    mapParts parts = .ok (frags.map (fun f => JSValue.string (f.getD []))) := by
  induction h with
  | nil => rfl
  | cons hpart _ ih =>
    unfold mapParts
    rw [partText_of_fragment _ _ hpart, ih]
    rfl

theorem keepFragment_string (rt : Runtime) (s : Str) :
    keepFragment rt (.string s) = decide (s ≠ []) := by
  cases s with
  | nil => rfl
  | cons a as =>
    simp only [keepFragment, JSValue.get, if_true, JSValue.gtZero, List.length_cons]
    simp

theorem join_fragments (rt : Runtime) (frags : List (Option Str)) :
    (((frags.map (fun f => JSValue.string (f.getD []))).filter (keepFragment rt)).map
        (JSValue.toStr rt)).flatten
      = (frags.map (fun f => f.getD [])).flatten := by
  induction frags with
  | nil => rfl
  | cons f rest ih =>
    simp only [List.map_cons, List.filter_cons, keepFragment_string]
    by_cases hf : f.getD [] = []
    · simp [hf, ih]
    · simp [hf, ih, JSValue.toStr]

theorem joinParts_of_fragments (rt : Runtime) (parts : List JSValue) (frags : List (Option Str))
    (h : List.Forall₂ (fun part frag => part.get "text".toList = some (fragmentValue frag))
      parts frags) :
    joinParts rt parts = .ok (frags.map (fun f => f.getD [])).flatten := by
  unfold joinParts
  rw [mapParts_of_fragments parts frags h]
  simp only [join_fragments]

theorem array_first (candidate : JSValue) (more : List JSValue) :
    (JSValue.array (candidate :: more)).get "0".toList = some candidate := by
  have h1 : ("0".toList = "length".toList) = False := by decide
  have h2 : Nat.toDigits 10 0 = "0".toList := by decide
  simp [JSValue.get, h1, List.enum, List.enumFrom, h2]

theorem array_length_positive (rt : Runtime) (candidate : JSValue) (more : List JSValue) :
    (((JSValue.array (candidate :: more)).get "length".toList).map (JSValue.gtZero rt)).getD false
      = true := by
  simp only [JSValue.get, if_true, Option.map_some', Option.getD_some, JSValue.gtZero,
    List.length_cons]
  simp

/-- C13, at the failing input: for a response whose first candidate has a
content with the number 42 as `text`, the extraction returns the number 42,
which is not a string; a direct string `text` is returned as a string. -/
theorem parseResponse_returns_number :
    parseResponse plainRuntime (candidateResponse (jsObject [("text", .number 42)]))
        = .ok (.number 42)
    ∧ (JSValue.number 42).isString = false
    ∧ (enhanceArticleWithLLM plainRuntime (pagesEnv [])
        (modelsAnswering [("models/gemini-1.5-flash",
          .ok (candidateResponse (jsObject [("text", .number 42)])))])
        scenarioArticle []).outcome = .ok (.number 42)
    ∧ parseResponse plainRuntime (jsObject [("text", jsText "Hello world")])
        = .ok (jsText "Hello world") := by
  refine ⟨rfl, rfl, rfl, rfl⟩

/-- C14: a response with a non-empty string `text` parses to that string,
whatever else it holds; and a response without such a `text`, whose first
candidate has a content with a `parts` array of parts with a string `text` or
none, parses to the concatenation of the fragments in order, without
separator, parts without text adding nothing, when that concatenation is not
empty. -/
theorem parseResponse_shapes (rt : Runtime) (direct response other candidate content : JSValue)
    (c : Char) (cs : Str) (more parts : List JSValue) (frags : List (Option Str))
    (h1 : direct.get "text".toList = some (.string (c :: cs)))
    (h2 : response.get "text".toList = some other)
    (h3 : (other.truthy && other.isString) = false)
    (h4 : response.get "candidates".toList = some (.array (candidate :: more)))
    (h5 : candidate.get "content".toList = some content)
    (h6 : content.truthy = true)
    (h7 : content.get "parts".toList = some (.array parts))
    (h8 : List.Forall₂ (fun part frag => part.get "text".toList = some (fragmentValue frag))
      parts frags)
    (h9 : (frags.map (fun f => f.getD [])).flatten ≠ []) :
    parseResponse rt direct = .ok (.string (c :: cs))
    ∧ parseResponse rt response = .ok (.string (frags.map (fun f => f.getD [])).flatten) := by
  constructor
  · have hd : directContent rt direct = .ok (.string (c :: cs)) := by
      unfold directContent JSValue.read
      rw [h1]
      rfl
    unfold parseResponse
    rw [hd]
    rfl
  · have hj := joinParts_of_fragments rt parts frags h8
    have hd : directContent rt response
        = .ok (.string (frags.map (fun f => f.getD [])).flatten) := by
      have ha : (JSValue.array (candidate :: more)).truthy = true := rfl
      simp only [directContent, JSValue.read, h2, h3, h4, ha, Bool.true_and,
        array_length_positive, array_first, h5, contentOfCandidate, h6, if_true, h7, hj,
        Bool.false_eq_true, if_false]
    simp only [parseResponse, hd, JSValue.truthy]
    simp [h9]

/-- C14, an instance: a direct text wins over the candidates, and three parts,
the middle one without text, are concatenated. -/
theorem parseResponse_shapes_witness :
    parseResponse plainRuntime
        (jsObject [("text", jsText "Direct"),
          ("candidates", .array [jsObject [("content", jsObject [("parts",
            .array [jsObject [("text", jsText "Other")]])])]])])
      = .ok (.string ('D' :: "irect".toList))
    ∧ parseResponse plainRuntime
        (candidateResponse (jsObject [("parts", .array [jsObject [("text", jsText "Hello ")],
          jsObject [], jsObject [("text", jsText "world")]])]))
      = .ok (.string ([some "Hello ".toList, none, some "world".toList].map
          (fun f => f.getD [])).flatten) :=
  parseResponse_shapes plainRuntime
    (jsObject [("text", jsText "Direct"),
      ("candidates", .array [jsObject [("content", jsObject [("parts",
        .array [jsObject [("text", jsText "Other")]])])]])])
    (candidateResponse (jsObject [("parts", .array [jsObject [("text", jsText "Hello ")],
      jsObject [], jsObject [("text", jsText "world")]])]))
    .undefined
    (jsObject [("content", jsObject [("parts", .array [jsObject [("text", jsText "Hello ")],
      jsObject [], jsObject [("text", jsText "world")]])])])
    (jsObject [("parts", .array [jsObject [("text", jsText "Hello ")],
      jsObject [], jsObject [("text", jsText "world")]])])
    'D' "irect".toList []
    [jsObject [("text", jsText "Hello ")], jsObject [], jsObject [("text", jsText "world")]]
    [some "Hello ".toList, none, some "world".toList]
    rfl rfl rfl rfl rfl rfl rfl
    (List.Forall₂.cons rfl (List.Forall₂.cons rfl (List.Forall₂.cons rfl List.Forall₂.nil)))
    (by decide)

/-- C15, counterexample: `findText` returns a string of 101 characters stored
under the field name `foo`, and one stored as an array element. -/
theorem findText_other_field :
    findText (jsObject [("foo", .string (List.replicate 101 'x'))])
        = some (List.replicate 101 'x')
    ∧ findText (.array [.string (List.replicate 101 'x')]) = some (List.replicate 101 'x')
    ∧ parseResponse plainRuntime (jsObject [("foo", .string (List.replicate 101 'x'))])
        = .ok (.string (List.replicate 101 'x')) := by
  refine ⟨by decide, by decide, rfl⟩

/-! ## The exact result of findText -/

theorem find_flatMap {α β : Type} (p : β → Bool) (f : α → List β) (l : List α) :
    (l.flatMap f).find? p = l.findSome? (fun a => (f a).find? p) := by
  induction l with
  | nil => rfl
  | cons a rest ih =>
    simp only [List.flatMap_cons, List.find?_append, List.findSome?_cons, ih]
    cases (f a).find? p <;> rfl

theorem keyed_long (key : Str) (v : JSValue) :
    (if key = "text".toList ∨ key = "content".toList then longString v else none)
      = (if key = "text".toList ∨ key = "content".toList then
          match v with
          | .string s => [s]
          | _ => []
         else []).find? (fun t => decide (100 < t.length)) := by
  by_cases hk : key = "text".toList ∨ key = "content".toList
  · simp only [hk, if_true]
    cases v with
    | string s =>
      by_cases hl : 100 < s.length
      · simp [longString, hl]
      · simp [longString, hl]
    | _ => simp [longString]
  · simp only [hk, if_false]
    rfl

theorem findTextFrom_eq_find (levels : Nat) :
    ∀ v : JSValue, findTextFrom levels v
      = (candidateStrings levels v).find? (fun t => decide (100 < t.length)) := by
  induction levels with
  | zero =>
    intro v
    simp [findTextFrom, candidateStrings]
  | succ levels ih =>
    intro v
    have hstep : ∀ e : Str × JSValue,
        (match (if e.1 = "text".toList ∨ e.1 = "content".toList then longString e.2
                else none) with
          | some s => some s
          | none => findTextFrom levels e.2)
        = ((if e.1 = "text".toList ∨ e.1 = "content".toList then
              match e.2 with
              | .string s => [s]
              | _ => []
             else []) ++ candidateStrings levels e.2).find?
            (fun t => decide (100 < t.length)) := by
      intro e
      rw [List.find?_append, ← keyed_long, ← ih]
      cases (if e.1 = "text".toList ∨ e.1 = "content".toList then longString e.2 else none)
        <;> rfl
    cases v with
    | string s =>
      by_cases hl : 100 < s.length
      · simp [findTextFrom, candidateStrings, longString, hl]
      · simp [findTextFrom, candidateStrings, longString, hl, JSValue.entries]
    | undefined => simp [findTextFrom, candidateStrings, longString, JSValue.entries]
    | null => simp [findTextFrom, candidateStrings, longString, JSValue.entries]
    | bool b => simp [findTextFrom, candidateStrings, longString, JSValue.entries]
    | number n => simp [findTextFrom, candidateStrings, longString, JSValue.entries]
    | object fields =>
      simp only [findTextFrom, candidateStrings, longString, find_flatMap]
      congr 1
      funext e
      exact hstep e
    | array items =>
      simp only [findTextFrom, candidateStrings, longString, find_flatMap]
      congr 1
      funext e
      exact hstep e

theorem stringsWithin_subset_candidates (levels : Nat) :
    ∀ (v : JSValue) (s : Str), s ∈ stringsWithin levels v →
      s ∈ candidateStrings (levels + 1) v := by
  induction levels with
  | zero =>
    intro v s hs
    cases v <;> simp_all [stringsWithin, candidateStrings]
  | succ levels ih =>
    intro v s hs
    cases v with
    | string t => simpa [stringsWithin, candidateStrings] using hs
    | undefined => simp [stringsWithin, JSValue.entries] at hs
    | null => simp [stringsWithin, JSValue.entries] at hs
    | bool b => simp [stringsWithin, JSValue.entries] at hs
    | number n => simp [stringsWithin, JSValue.entries] at hs
    | object fields =>
      simp only [stringsWithin, List.mem_flatMap] at hs
      obtain ⟨e, he, hse⟩ := hs
      simp only [candidateStrings, List.mem_flatMap, List.mem_append]
      exact ⟨e, he, Or.inr (ih e.2 s hse)⟩
    | array items =>
      simp only [stringsWithin, List.mem_flatMap] at hs
      obtain ⟨e, he, hse⟩ := hs
      simp only [candidateStrings, List.mem_flatMap, List.mem_append]
      exact ⟨e, he, Or.inr (ih e.2 s hse)⟩

theorem findText_of_long_within (v : JSValue) (t : Str) (ht : t ∈ stringsWithin 5 v)
    (hlen : 100 < t.length) : ∃ u, findText v = some u := by
  have hmem := stringsWithin_subset_candidates 5 v t ht
  unfold findText
  rw [findTextFrom_eq_find]
  cases hf : (candidateStrings 6 v).find? (fun t => decide (100 < t.length)) with
  | some u => exact ⟨u, rfl⟩
  | none =>
    rw [List.find?_eq_none] at hf
    have := hf t hmem
    simp [hlen] at this

theorem candidates_subset_stringsWithin (levels : Nat) :
    ∀ (v : JSValue) (s : Str), s ∈ candidateStrings levels v → s ∈ stringsWithin levels v := by
  induction levels with
  | zero =>
    intro v s hs
    simp [candidateStrings] at hs
  | succ levels ih =>
    intro v s hs
    have hentry : ∀ e : Str × JSValue,
        s ∈ (if e.1 = "text".toList ∨ e.1 = "content".toList then
              match e.2 with
              | .string t => [t]
              | _ => []
             else []) ++ candidateStrings levels e.2 →
        s ∈ stringsWithin levels e.2 := by
      intro e hse
      rcases List.mem_append.mp hse with hk | hr
      · split at hk
        · split at hk
          · rename_i t heq
            rw [heq, stringsWithin_succ_self]
            exact hk
          · cases hk
        · cases hk
      · exact ih e.2 s hr
    cases v with
    | string t => simpa [stringsWithin, candidateStrings] using hs
    | undefined => simp [candidateStrings, JSValue.entries] at hs
    | null => simp [candidateStrings, JSValue.entries] at hs
    | bool b => simp [candidateStrings, JSValue.entries] at hs
    | number n => simp [candidateStrings, JSValue.entries] at hs
    | object fields =>
      simp only [candidateStrings, List.mem_flatMap] at hs
      obtain ⟨e, he, hse⟩ := hs
      simp only [stringsWithin, List.mem_flatMap]
      exact ⟨e, he, hentry e hse⟩
    | array items =>
      simp only [candidateStrings, List.mem_flatMap] at hs
      obtain ⟨e, he, hse⟩ := hs
      simp only [stringsWithin, List.mem_flatMap]
      exact ⟨e, he, hentry e hse⟩

/-- C15, as amended: a string that `findText` returns is longer than 100
characters and lies at most 6 levels below the response; it is the first
string longer than 100, in traversal order, among the strings at most 5
levels below the response, whatever the name of their field and array elements
included, and the strings at level 6 that are the value of a field named `text`
or `content`.  So a long string within 5 levels makes `findText` return a
string, and at level 6 a long string under another name, or in an array, is
not returned. -/
theorem findText_sound (response : JSValue) (s : Str) (h : findText response = some s) :
    100 < s.length
    ∧ s ∈ stringsWithin 6 response
    ∧ (candidateStrings 6 response).find? (fun t => decide (100 < t.length)) = some s
    ∧ (∀ v : JSValue,
        findText v = (candidateStrings 6 v).find? (fun t => decide (100 < t.length)))
    ∧ (∀ (v : JSValue) (t : Str), t ∈ stringsWithin 5 v → t ∈ candidateStrings 6 v)
    ∧ (∀ (v : JSValue) (t : Str), t ∈ candidateStrings 6 v → t ∈ stringsWithin 6 v)
    ∧ (∀ (v : JSValue) (t : Str), t ∈ stringsWithin 5 v → 100 < t.length →
        ∃ u, findText v = some u)
    ∧ findText (nestUnder 4 (jsObject [("foo", .string (List.replicate 101 'x'))]))
        = some (List.replicate 101 'x')
    ∧ findText (nestUnder 4 (.array [.string (List.replicate 101 'x')]))
        = some (List.replicate 101 'x')
    ∧ findText (nestUnder 5 (jsObject [("foo", .string (List.replicate 101 'x'))])) = none
    ∧ findText (nestUnder 5 (.array [.string (List.replicate 101 'x')])) = none
    ∧ findText (nestUnder 5 (jsObject [("content", .string (List.replicate 101 'x'))]))
        = some (List.replicate 101 'x') := by
  refine ⟨(findTextFrom_sound 6 response s h).1, (findTextFrom_sound 6 response s h).2, ?_,
    fun v => findTextFrom_eq_find 6 v, fun v t ht => stringsWithin_subset_candidates 5 v t ht,
    fun v t ht => candidates_subset_stringsWithin 6 v t ht,
    fun v t ht hlen => findText_of_long_within v t ht hlen,
    by decide, by decide, by decide, by decide, by decide⟩
  rw [← findTextFrom_eq_find 6 response]
  exact h

/-- C15, an instance: the string under `foo` at the root is returned, is longer
than 100, lies within 6 levels and is the first long candidate. -/
theorem findText_sound_witness :
    findText (jsObject [("foo", .string (List.replicate 101 'x'))])
        = some (List.replicate 101 'x')
    ∧ 100 < (List.replicate 101 'x').length
    ∧ List.replicate 101 'x'
        ∈ stringsWithin 6 (jsObject [("foo", .string (List.replicate 101 'x'))])
    ∧ (candidateStrings 6 (jsObject [("foo", .string (List.replicate 101 'x'))])).find?
        (fun t => decide (100 < t.length)) = some (List.replicate 101 'x') :=
  ⟨by decide,
   (findText_sound (jsObject [("foo", .string (List.replicate 101 'x'))])
      (List.replicate 101 'x') (by decide)).1,
   (findText_sound (jsObject [("foo", .string (List.replicate 101 'x'))])
      (List.replicate 101 'x') (by decide)).2.1,
   (findText_sound (jsObject [("foo", .string (List.replicate 101 'x'))])
      (List.replicate 101 'x') (by decide)).2.2.1⟩

/-! ## Lemmas for enhanceArticleWithLLM -/

theorem enhance_of_sufficient (rt : Runtime) (pages : ScrapeEnv) (models : ModelEnv)
    (a : Article) (refs : List ReferenceArticle) (h : 50 ≤ (originalContent pages a).2.length) :
    (enhanceArticleWithLLM rt pages models a refs).modelCalls
        = (callModels models
            (buildPrompt a.title (originalContent pages a).2 (referenceContent refs))).1
    ∧ (enhanceArticleWithLLM rt pages models a refs).outcome
        = match (callModels models
            (buildPrompt a.title (originalContent pages a).2 (referenceContent refs))).2 with
          | .error e => .error e
          | .ok response => parseResponse rt response := by
  have hne : ¬ ((originalContent pages a).2 = [] ∨ (originalContent pages a).2.length < 50) := by
    rintro (h0 | h0)
    · rw [h0] at h
      simp at h
    · omega
  unfold enhanceArticleWithLLM
  simp only [hne, if_false]
  cases hcm : callModels models
      (buildPrompt a.title (originalContent pages a).2 (referenceContent refs)) with
  | mk calls res =>
    cases res with
    | error e => exact ⟨rfl, rfl⟩
    | ok response => exact ⟨rfl, rfl⟩

theorem callModels_error (models : ModelEnv) (prompt : Str) (e : JSError)
    (h : (callModels models prompt).2 = .error e) : ∃ m, e = allModelsFailedError m := by
  unfold callModels at h
  split at h
  · cases h
  · split at h
    · cases h
    · split at h
      · cases h
      · rename_i m _
        simp only [Except.error.injEq] at h
        exact ⟨m, h.symm⟩

theorem parseResponse_error (rt : Runtime) (response : JSValue) (e : JSError)
    (h : parseResponse rt response = .error e) : ∃ m, e = extractError m := by
  unfold parseResponse at h
  split at h
  · simp only [Except.error.injEq] at h
    exact ⟨_, h.symm⟩
  · split at h
    · cases h
    · split at h
      · cases h
      · simp only [Except.error.injEq] at h
        exact ⟨_, h.symm⟩

theorem allModelsFailed_ne_insufficient (m : Str) :
    allModelsFailedError m ≠ insufficientContentError := by
  intro h
  unfold allModelsFailedError insufficientContentError at h
  injection h with h1
  have h2 := congrArg List.head? h1
  have h3 : (some 'A' : Option Char) = some 'O' := h2
  exact absurd h3 (by decide)

theorem extractError_ne_insufficient (m : Str) : extractError m ≠ insufficientContentError := by
  intro h
  unfold extractError insufficientContentError at h
  injection h with h1
  have h2 := congrArg List.head? h1
  have h3 : (some 'F' : Option Char) = some 'O' := h2
  exact absurd h3 (by decide)

/-- C11: with `c` the source content (the excerpt when it is non-empty,
otherwise the text extracted from one fetch of a non-empty url when fetch and
extraction succeed, otherwise empty), `enhanceArticleWithLLM` fails with the
too-short error and calls no model when `c` has fewer than 50 characters, and
does not fail with that error when `c` has at least 50; at most one page is
fetched; an article with empty excerpt and no url fails this way. -/
theorem enhance_insufficient_content (rt : Runtime) (pages : ScrapeEnv) (models : ModelEnv)
    (a : Article) (refs : List ReferenceArticle) :
    ((originalContent pages a).2.length < 50 →
        (enhanceArticleWithLLM rt pages models a refs).outcome = .error insufficientContentError
        ∧ (enhanceArticleWithLLM rt pages models a refs).modelCalls = [])
    ∧ (50 ≤ (originalContent pages a).2.length →
        (enhanceArticleWithLLM rt pages models a refs).outcome
          ≠ .error insufficientContentError)
    ∧ (originalContent pages a).1.length ≤ 1
    ∧ (∀ x xs, a.excerpt = some (x :: xs) → originalContent pages a = ([], x :: xs))
    ∧ (truthy a.excerpt = false → truthy a.url = false → originalContent pages a = ([], []))
    ∧ (∀ u us, truthy a.excerpt = false → a.url = some (u :: us) →
        (originalContent pages a).1 = [.text (u :: us)]
        ∧ (∀ html text, pages.axiosGet (.text (u :: us)) = .ok html →
            pages.extract html (.text (u :: us)) = .ok text →
            (originalContent pages a).2 = text)
        ∧ (∀ m, pages.axiosGet (.text (u :: us)) = .error m → (originalContent pages a).2 = []))
    ∧ (enhanceArticleWithLLM rt pages models
        { id := 42, title := "X".toList, excerpt := some [], url := none } refs).outcome
        = .error insufficientContentError
    ∧ (enhanceArticleWithLLM rt pages models
        { id := 42, title := "X".toList, excerpt := some [], url := none } refs).modelCalls
        = [] := by
  refine ⟨?_, ?_, ?_, ?_, ?_, ?_, rfl, rfl⟩
  · intro h
    have hc : (originalContent pages a).2 = [] ∨ (originalContent pages a).2.length < 50 :=
      Or.inr h
    unfold enhanceArticleWithLLM
    simp only [hc, if_true, and_self]
  · intro h hout
    have ho := (enhance_of_sufficient rt pages models a refs h).2
    rw [ho] at hout
    split at hout
    · rename_i e he
      obtain ⟨m, hm⟩ := callModels_error _ _ e he
      simp only [Except.error.injEq] at hout
      rw [hm] at hout
      exact allModelsFailed_ne_insufficient m hout
    · obtain ⟨m, hm⟩ := parseResponse_error _ _ _ hout
      exact extractError_ne_insufficient m hm.symm
  · unfold originalContent
    split
    · simp
    · split <;> simp
  · intro x xs hx
    unfold originalContent
    rw [hx]
  · intro he hu
    unfold originalContent
    split
    · rename_i c cs hc
      rw [hc] at he
      simp [truthy] at he
    · split
      · rename_i u us hus
        rw [hus] at hu
        simp [truthy] at hu
      · rfl
  · intro u us he hu
    have hexc : ∀ c cs, a.excerpt ≠ some (c :: cs) := by
      intro c cs hc
      rw [hc] at he
      simp [truthy] at he
    have ho : originalContent pages a
        = ([.text (u :: us)],
            match fetchArticleContent pages (.text (u :: us)) with
            | .error _ => []
            | .ok html =>
              match pages.extract html (.text (u :: us)) with
              | .error _ => []
              | .ok content => content) := by
      unfold originalContent
      split
      · rename_i c cs hc
        exact absurd hc (hexc c cs)
      · rw [hu]
    refine ⟨by rw [ho], ?_, ?_⟩
    · intro html text hf hx
      rw [ho]
      simp only [fetchArticleContent, hf, hx]
    · intro m hf
      rw [ho]
      simp only [fetchArticleContent, hf]

/-- C12, counterexample: the first identifier answers with an empty object and
the second would answer with a text; the second is never called and the call
fails with the extraction error. -/
theorem enhance_unparseable_not_skipped :
    (enhanceArticleWithLLM plainRuntime (pagesEnv [])
        (modelsAnswering [("models/gemini-1.5-flash", .ok (jsObject [])),
          ("gemini-2.0-flash", .ok (jsObject [("text", jsText "Hello world")]))])
        scenarioArticle []).modelCalls = ["models/gemini-1.5-flash".toList]
    ∧ (enhanceArticleWithLLM plainRuntime (pagesEnv [])
        (modelsAnswering [("models/gemini-1.5-flash", .ok (jsObject [])),
          ("gemini-2.0-flash", .ok (jsObject [("text", jsText "Hello world")]))])
        scenarioArticle []).outcome = .error (extractError noTextMessage)
    ∧ parseResponse plainRuntime (jsObject [("text", jsText "Hello world")])
        = .ok (jsText "Hello world") := by
  refine ⟨rfl, rfl, rfl⟩

/-- C12, as amended: with a source content of at least 50 characters the
identifiers `models/gemini-1.5-flash`, `gemini-2.0-flash`,
`models/gemini-2.0-flash` are called in this order until one call does not
throw; the response of that call alone is parsed, and the outcome is its text
or, when it is empty or cannot be parsed, the extraction error, without a
further call; when all three calls throw, the outcome is the all-models-failed
error with the message of the third. -/
theorem enhance_first_responding (rt : Runtime) (pages : ScrapeEnv) (models : ModelEnv)
    (a : Article) (refs : List ReferenceArticle) (h : 50 ≤ (originalContent pages a).2.length) :
    (∀ r1,
        models.generateContent "models/gemini-1.5-flash".toList
          (buildPrompt a.title (originalContent pages a).2 (referenceContent refs)) = .ok r1 →
        (enhanceArticleWithLLM rt pages models a refs).modelCalls
          = ["models/gemini-1.5-flash".toList]
        ∧ (enhanceArticleWithLLM rt pages models a refs).outcome = parseResponse rt r1)
    ∧ (∀ e1 r2,
        models.generateContent "models/gemini-1.5-flash".toList
          (buildPrompt a.title (originalContent pages a).2 (referenceContent refs)) = .error e1 →
        models.generateContent "gemini-2.0-flash".toList
          (buildPrompt a.title (originalContent pages a).2 (referenceContent refs)) = .ok r2 →
        (enhanceArticleWithLLM rt pages models a refs).modelCalls
          = ["models/gemini-1.5-flash".toList, "gemini-2.0-flash".toList]
        ∧ (enhanceArticleWithLLM rt pages models a refs).outcome = parseResponse rt r2)
    ∧ (∀ e1 e2 r3,
        models.generateContent "models/gemini-1.5-flash".toList
          (buildPrompt a.title (originalContent pages a).2 (referenceContent refs)) = .error e1 →
        models.generateContent "gemini-2.0-flash".toList
          (buildPrompt a.title (originalContent pages a).2 (referenceContent refs)) = .error e2 →
        models.generateContent "models/gemini-2.0-flash".toList
          (buildPrompt a.title (originalContent pages a).2 (referenceContent refs)) = .ok r3 →
        (enhanceArticleWithLLM rt pages models a refs).modelCalls
          = ["models/gemini-1.5-flash".toList, "gemini-2.0-flash".toList,
             "models/gemini-2.0-flash".toList]
        ∧ (enhanceArticleWithLLM rt pages models a refs).outcome = parseResponse rt r3)
    ∧ (∀ e1 e2 e3,
        models.generateContent "models/gemini-1.5-flash".toList
          (buildPrompt a.title (originalContent pages a).2 (referenceContent refs)) = .error e1 →
        models.generateContent "gemini-2.0-flash".toList
          (buildPrompt a.title (originalContent pages a).2 (referenceContent refs)) = .error e2 →
        models.generateContent "models/gemini-2.0-flash".toList
          (buildPrompt a.title (originalContent pages a).2 (referenceContent refs)) = .error e3 →
        (enhanceArticleWithLLM rt pages models a refs).modelCalls
          = ["models/gemini-1.5-flash".toList, "gemini-2.0-flash".toList,
             "models/gemini-2.0-flash".toList]
        ∧ (enhanceArticleWithLLM rt pages models a refs).outcome
          = .error (allModelsFailedError e3))
    ∧ modelIdentifiers = ["models/gemini-1.5-flash".toList, "gemini-2.0-flash".toList,
        "models/gemini-2.0-flash".toList] := by
  obtain ⟨hc, ho⟩ := enhance_of_sufficient rt pages models a refs h
  rw [hc, ho]
  refine ⟨?_, ?_, ?_, ?_, rfl⟩
  · intro r1 h1
    simp only [callModels, h1, and_self]
  · intro e1 r2 h1 h2
    simp only [callModels, h1, h2, and_self]
  · intro e1 e2 r3 h1 h2 h3
    simp only [callModels, h1, h2, h3, and_self]
  · intro e1 e2 e3 h1 h2 h3
    simp only [callModels, h1, h2, h3, and_self]

/-- C12, an instance: the first identifier throws and the second answers with a
text, which is returned after two calls. -/
theorem enhance_first_responding_witness :
    50 ≤ (originalContent (pagesEnv []) scenarioArticle).2.length
    ∧ (enhanceArticleWithLLM plainRuntime (pagesEnv [])
        (modelsAnswering [("gemini-2.0-flash", .ok (jsObject [("text", jsText "Hello world")]))])
        scenarioArticle []).modelCalls
        = ["models/gemini-1.5-flash".toList, "gemini-2.0-flash".toList]
    ∧ (enhanceArticleWithLLM plainRuntime (pagesEnv [])
        (modelsAnswering [("gemini-2.0-flash", .ok (jsObject [("text", jsText "Hello world")]))])
        scenarioArticle []).outcome
        = parseResponse plainRuntime (jsObject [("text", jsText "Hello world")]) :=
  ⟨by decide,
   (enhance_first_responding plainRuntime (pagesEnv [])
      (modelsAnswering [("gemini-2.0-flash", .ok (jsObject [("text", jsText "Hello world")]))])
      scenarioArticle [] (by decide)).2.1 "model not found".toList
      (jsObject [("text", jsText "Hello world")]) rfl rfl⟩

/-! ## Lemmas for main -/

theorem discover_cases (env : MainEnv) (title : Str) :
    (∃ r, discover env title = ([.searchGoogleForArticle title true], .ok r))
    ∨ (∃ r, discover env title
        = ([.searchGoogleForArticle title false,
            .searchGoogleForArticle (genericQuery title) true], .ok r))
    ∨ (∃ e, discover env title
        = ([.searchGoogleForArticle title false,
            .searchGoogleForArticle (genericQuery title) false], .error e)) := by
  unfold discover
  split
  · exact Or.inl ⟨_, rfl⟩
  · split
    · exact Or.inr (Or.inl ⟨_, rfl⟩)
    · exact Or.inr (Or.inr ⟨_, rfl⟩)

theorem enhanceAndPublish_cases (env : MainEnv) (a : Article) (refs : List ReferenceArticle)
    (before : List Event) :
    ((enhanceAndPublish env a refs before).events = before ++ [.enhanceArticleWithLLM false]
      ∧ (enhanceAndPublish env a refs before).exitCode = 1)
    ∨ ∃ content ok,
        (enhanceArticleWithLLM env.rt env.pages env.models a refs).outcome = .ok content
        ∧ (enhanceAndPublish env a refs before).events
            = before ++ [.enhanceArticleWithLLM true,
                .updateArticle a.id
                  (updatePayload a (addCitations (content.toStr env.rt) refs)) ok]
        ∧ (enhanceAndPublish env a refs before).exitCode = (if ok = true then 0 else 1) := by
  unfold enhanceAndPublish
  cases he : (enhanceArticleWithLLM env.rt env.pages env.models a refs).outcome with
  | error e => exact Or.inl ⟨rfl, rfl⟩
  | ok content =>
    right
    simp only
    cases hu : updateArticle env a.id
        (updatePayload a (addCitations (content.toStr env.rt) refs)) with
    | error e => exact ⟨content, false, rfl, rfl, rfl⟩
    | ok updated => exact ⟨content, true, rfl, rfl, rfl⟩

theorem scrapeAndAfter_cases (env : MainEnv) (a : Article) (results : List SearchResult)
    (before : List Event) :
    ((scrapeAndAfter env a results before).events = before ++ [.scrapeArticles none]
      ∧ (scrapeAndAfter env a results before).exitCode = 1)
    ∨ ((scrapeAndAfter env a results before).events = before ++ [.scrapeArticles (some 0)]
      ∧ (scrapeAndAfter env a results before).exitCode = 1)
    ∨ ∃ refs n,
        (scrapeArticles env.pages (results.map Candidate.obj)).outcome = .ok refs
        ∧ refs.length = n + 1
        ∧ scrapeAndAfter env a results before
            = enhanceAndPublish env a refs (before ++ [.scrapeArticles (some (n + 1))]) := by
  unfold scrapeAndAfter
  cases hs : (scrapeArticles env.pages (results.map Candidate.obj)).outcome with
  | error e => exact Or.inl ⟨rfl, rfl⟩
  | ok refs =>
    simp only
    by_cases h0 : refs.length = 0
    · rw [if_pos h0]
      exact Or.inr (Or.inl ⟨rfl, rfl⟩)
    · obtain ⟨n, hn⟩ := Nat.exists_eq_succ_of_ne_zero h0
      rw [if_neg h0]
      refine Or.inr (Or.inr ⟨refs, n, rfl, hn, ?_⟩)
      rw [hn]

/-- The traces of `main`: either no update is called and the exit code is 1, or
every upstream stage returned and the update is the last event. -/
theorem main_trace (env : MainEnv) :
    ((∀ e ∈ (main env).events, e.isUpdate = false) ∧ (main env).exitCode = 1
      ∧ ((main env).events = [] ∨ upstreamFailed (main env).events = true))
    ∨ ∃ a searches results refs n content ok,
        fetchLatestArticle env = .ok a
        ∧ discover env a.title = (searches, .ok results)
        ∧ (searches = [.searchGoogleForArticle a.title true]
            ∨ searches = [.searchGoogleForArticle a.title false,
                .searchGoogleForArticle (genericQuery a.title) true])
        ∧ (scrapeArticles env.pages (results.map Candidate.obj)).outcome = .ok refs
        ∧ refs.length = n + 1
        ∧ (enhanceArticleWithLLM env.rt env.pages env.models a refs).outcome = .ok content
        ∧ (main env).events
            = .fetchLatestArticle true :: searches
                ++ [.scrapeArticles (some (n + 1)), .enhanceArticleWithLLM true,
                    .updateArticle a.id
                      (updatePayload a (addCitations (content.toStr env.rt) refs)) ok]
        ∧ (main env).exitCode = (if ok = true then 0 else 1) := by
  unfold main
  by_cases hkey : truthy env.GEMINI_API_KEY = false
  · rw [if_pos hkey]
    left
    simp
  · rw [if_neg hkey]
    cases hf : fetchLatestArticle env with
    | error e =>
      left
      simp [Event.isUpdate, upstreamFailed, Event.failed]
    | ok a =>
      simp only
      rcases discover_cases env a.title with ⟨r, hd⟩ | ⟨r, hd⟩ | ⟨e, hd⟩
      · rw [hd]
        simp only
        rcases scrapeAndAfter_cases env a r
            [.fetchLatestArticle true, .searchGoogleForArticle a.title true]
          with ⟨h1, h2⟩ | ⟨h1, h2⟩ | ⟨refs, n, hs, hn, hrun⟩
        · left
          rw [h1, h2]
          simp [Event.isUpdate, upstreamFailed, Event.failed]
        · left
          rw [h1, h2]
          simp [Event.isUpdate, upstreamFailed, Event.failed]
        · rw [hrun]
          rcases enhanceAndPublish_cases env a refs
              ([.fetchLatestArticle true, .searchGoogleForArticle a.title true]
                ++ [.scrapeArticles (some (n + 1))])
            with ⟨h1, h2⟩ | ⟨content, ok, he, h1, h2⟩
          · left
            rw [h1, h2]
            simp [Event.isUpdate, upstreamFailed, Event.failed]
          · right
            refine ⟨a, _, r, refs, n, content, ok, rfl, hd, Or.inl rfl, hs, hn, he, ?_, h2⟩
            rw [h1]
            simp
      · rw [hd]
        simp only
        rcases scrapeAndAfter_cases env a r
            [.fetchLatestArticle true, .searchGoogleForArticle a.title false,
              .searchGoogleForArticle (genericQuery a.title) true]
          with ⟨h1, h2⟩ | ⟨h1, h2⟩ | ⟨refs, n, hs, hn, hrun⟩
        · left
          rw [h1, h2]
          simp [Event.isUpdate, upstreamFailed, Event.failed]
        · left
          rw [h1, h2]
          simp [Event.isUpdate, upstreamFailed, Event.failed]
        · rw [hrun]
          rcases enhanceAndPublish_cases env a refs
              ([.fetchLatestArticle true, .searchGoogleForArticle a.title false,
                  .searchGoogleForArticle (genericQuery a.title) true]
                ++ [.scrapeArticles (some (n + 1))])
            with ⟨h1, h2⟩ | ⟨content, ok, he, h1, h2⟩
          · left
            rw [h1, h2]
            simp [Event.isUpdate, upstreamFailed, Event.failed]
          · right
            refine ⟨a, _, r, refs, n, content, ok, rfl, hd, Or.inr rfl, hs, hn, he, ?_, h2⟩
            rw [h1]
            simp
      · rw [hd]
        left
        simp [Event.isUpdate, upstreamFailed, Event.failed, discoveryFailed, Event.isSearch]

theorem main_update_mem (env : MainEnv) (articleId : Nat) (updatedData : List (Str × Str))
    (ok : Bool) (h : Event.updateArticle articleId updatedData ok ∈ (main env).events) :
    ∃ a searches results refs n content,
      fetchLatestArticle env = .ok a
      ∧ discover env a.title = (searches, .ok results)
      ∧ (searches = [.searchGoogleForArticle a.title true]
          ∨ searches = [.searchGoogleForArticle a.title false,
              .searchGoogleForArticle (genericQuery a.title) true])
      ∧ (scrapeArticles env.pages (results.map Candidate.obj)).outcome = .ok refs
      ∧ refs.length = n + 1
      ∧ (enhanceArticleWithLLM env.rt env.pages env.models a refs).outcome = .ok content
      ∧ articleId = a.id
      ∧ updatedData = updatePayload a (addCitations (content.toStr env.rt) refs)
      ∧ (main env).events
          = (.fetchLatestArticle true :: searches
              ++ [.scrapeArticles (some (n + 1)), .enhanceArticleWithLLM true])
            ++ [.updateArticle articleId updatedData ok]
      ∧ (main env).exitCode = (if ok = true then 0 else 1) := by
  rcases main_trace env with ⟨hno, -, -⟩ | ⟨a, searches, results, refs, n, content, ok2, hf, hd, hs,
    hsc, hn, he, hev, hex⟩
  · have := hno _ h
    simp [Event.isUpdate] at this
  · rw [hev] at h
    have hmem : Event.updateArticle articleId updatedData ok
        = .updateArticle a.id (updatePayload a (addCitations (content.toStr env.rt) refs)) ok2 := by
      rcases hs with hs | hs
      · rw [hs] at h
        simpa using h
      · rw [hs] at h
        simpa using h
    injection hmem with h1 h2 h3
    subst h1 h2 h3
    refine ⟨a, searches, results, refs, n, content, hf, hd, hs, hsc, hn, he, rfl, rfl, ?_, hex⟩
    rw [hev]
    simp

theorem putAccepted_iff (env : MainEnv) (articleId : Nat) (body : List (Str × Str)) :
    putAccepted env articleId body = true
      ↔ ∃ response, env.putArticle articleId body = .ok response ∧ response.success = true := by
  unfold putAccepted
  cases hput : env.putArticle articleId body with
  | error m => simp
  | ok response => simp

theorem enhanceAndPublish_put (env : MainEnv) (a : Article) (refs : List ReferenceArticle)
    (before : List Event) (content : JSValue)
    (he : (enhanceArticleWithLLM env.rt env.pages env.models a refs).outcome = .ok content) :
    enhanceAndPublish env a refs before
      = { events := before ++ [.enhanceArticleWithLLM true,
            .updateArticle a.id (updatePayload a (addCitations (content.toStr env.rt) refs))
              (putAccepted env a.id
                (updatePayload a (addCitations (content.toStr env.rt) refs)))],
          exitCode :=
            if putAccepted env a.id
                (updatePayload a (addCitations (content.toStr env.rt) refs)) = true
            then 0 else 1 } := by
  unfold enhanceAndPublish
  rw [he]
  simp only
  unfold updateArticle putAccepted
  cases hput : env.putArticle a.id (updatePayload a (addCitations (content.toStr env.rt) refs)) with
  | error m => rfl
  | ok response =>
    cases hs : response.success <;> simp [hs]

theorem main_eq_publish (env : MainEnv) (a : Article) (searches : List Event)
    (results : List SearchResult) (refs : List ReferenceArticle) (n : Nat)
    (hkey : ¬ truthy env.GEMINI_API_KEY = false) (hf : fetchLatestArticle env = .ok a)
    (hd : discover env a.title = (searches, .ok results))
    (hsc : (scrapeArticles env.pages (results.map Candidate.obj)).outcome = .ok refs)
    (hn : refs.length = n + 1) :
    main env
      = enhanceAndPublish env a refs
          ((.fetchLatestArticle true :: searches) ++ [.scrapeArticles (some (n + 1))]) := by
  have h0 : ¬ refs.length = 0 := by omega
  unfold main
  rw [if_neg hkey, hf]
  simp only
  rw [hd]
  simp only
  unfold scrapeAndAfter
  rw [hsc]
  simp only
  rw [if_neg h0, hn]

theorem main_key_of_update (env : MainEnv) (articleId : Nat) (updatedData : List (Str × Str))
    (ok : Bool) (h : Event.updateArticle articleId updatedData ok ∈ (main env).events) :
    ¬ truthy env.GEMINI_API_KEY = false := by
  intro hkey
  unfold main at h
  rw [if_pos hkey] at h
  cases h

theorem main_update_accepted (env : MainEnv) (articleId : Nat) (updatedData : List (Str × Str))
    (ok : Bool) (h : Event.updateArticle articleId updatedData ok ∈ (main env).events) :
    ok = putAccepted env articleId updatedData := by
  have hkey := main_key_of_update env articleId updatedData ok h
  obtain ⟨a, searches, results, refs, n, content, hf, hd, -, hsc, hn, he, hid, hdata, -, hex⟩ :=
    main_update_mem env articleId updatedData ok h
  rw [main_eq_publish env a searches results refs n hkey hf hd hsc hn,
    enhanceAndPublish_put env a refs _ content he] at hex
  simp only at hex
  rw [hid, hdata]
  cases ok <;>
    cases hp : putAccepted env a.id (updatePayload a (addCitations (content.toStr env.rt) refs))
      <;> simp [hp] at hex ⊢

theorem main_put_only (env : MainEnv) (articleId : Nat) (updatedData : List (Str × Str))
    (ok : Bool) (h : Event.updateArticle articleId updatedData ok ∈ (main env).events)
    (put : Nat → List (Str × Str) → Except Str PutResponse)
    (hput : put articleId updatedData = env.putArticle articleId updatedData) :
    main { env with putArticle := put } = main env := by
  have hkey := main_key_of_update env articleId updatedData ok h
  obtain ⟨a, searches, results, refs, n, content, hf, hd, -, hsc, hn, he, hid, hdata, -, -⟩ :=
    main_update_mem env articleId updatedData ok h
  rw [main_eq_publish env a searches results refs n hkey hf hd hsc hn,
    main_eq_publish { env with putArticle := put } a searches results refs n hkey hf hd hsc hn,
    enhanceAndPublish_put env a refs _ content he,
    enhanceAndPublish_put { env with putArticle := put } a refs _ content he]
  have hacc : putAccepted { env with putArticle := put } a.id
        (updatePayload a (addCitations (content.toStr env.rt) refs))
      = putAccepted env a.id (updatePayload a (addCitations (content.toStr env.rt) refs)) := by
    unfold putAccepted
    rw [← hid, ← hdata]
    simp only [hput]
  simp only [hacc]

/-- C16: every update call of a run of `main` carries a payload with exactly
the two keys `title` and `enhanced_content`, in which `title` is the title of
the fetched article and `enhanced_content` is `addCitations` of the synthesized
text and the scraped references; the payload has no `excerpt`, `url` or
`published_at` key, and the call is made for the fetched article's id.  This
payload is the body that is sent: the call succeeds exactly when the article
API accepts the `PUT` request for this id with this body, and the run does not
depend on what the API would answer to any other request. -/
theorem main_update_payload (env : MainEnv) (articleId : Nat) (updatedData : List (Str × Str))
    (ok : Bool) (h : Event.updateArticle articleId updatedData ok ∈ (main env).events) :
    (∃ a searches results refs content,
      fetchLatestArticle env = .ok a
      ∧ discover env a.title = (searches, .ok results)
      ∧ (scrapeArticles env.pages (results.map Candidate.obj)).outcome = .ok refs
      ∧ (enhanceArticleWithLLM env.rt env.pages env.models a refs).outcome = .ok content
      ∧ articleId = a.id
      ∧ updatedData = [("title".toList, a.title),
          ("enhanced_content".toList, addCitations (content.toStr env.rt) refs)]
      ∧ updatedData.map Prod.fst = ["title".toList, "enhanced_content".toList]
      ∧ "excerpt".toList ∉ updatedData.map Prod.fst
      ∧ "url".toList ∉ updatedData.map Prod.fst
      ∧ "published_at".toList ∉ updatedData.map Prod.fst
      ∧ (∀ s, content = .string s → content.toStr env.rt = s))
    ∧ (ok = true
        ↔ ∃ response, env.putArticle articleId updatedData = .ok response
            ∧ response.success = true)
    ∧ (∀ put : Nat → List (Str × Str) → Except Str PutResponse,
        put articleId updatedData = env.putArticle articleId updatedData →
        main { env with putArticle := put } = main env) := by
  refine ⟨?_, ?_, fun put hput => main_put_only env articleId updatedData ok h put hput⟩
  · obtain ⟨a, searches, results, refs, n, content, hf, hd, -, hsc, -, he, hid, hdata, -, -⟩ :=
      main_update_mem env articleId updatedData ok h
    refine ⟨a, searches, results, refs, content, hf, hd, hsc, he, hid, hdata, ?_, ?_, ?_, ?_, ?_⟩
    · rw [hdata]
      rfl
    · rw [hdata]
      simp only [updatePayload, List.map_cons, List.map_nil]
      decide
    · rw [hdata]
      simp only [updatePayload, List.map_cons, List.map_nil]
      decide
    · rw [hdata]
      simp only [updatePayload, List.map_cons, List.map_nil]
      decide
    · intro s hs
      rw [hs]
      rfl
  · rw [main_update_accepted env articleId updatedData ok h]
    exact putAccepted_iff env articleId updatedData

/-- C16, an instance: the run of Scenario A makes one update call, for article
42, whose payload is the title `X` and the synthesized text with its two
citations; the article API is asked with this body and accepts it, and an API
that answers this request alike gives the same run. -/
theorem main_update_payload_witness :
    (main scenarioEnv).events
      = [.fetchLatestArticle true, .searchGoogleForArticle "X".toList true,
         .scrapeArticles (some 2), .enhanceArticleWithLLM true,
         .updateArticle 42
           [("title".toList, "X".toList),
            ("enhanced_content".toList,
              ("Hello world\n\n---\n\n## References\n\n1. [T1](https://a.example/blog/foo)\n"
                ++ "2. [T2](https://b.example/blog/bar)\n").toList)] true]
    ∧ (∃ a searches results refs content,
      fetchLatestArticle scenarioEnv = .ok a
      ∧ discover scenarioEnv a.title = (searches, .ok results)
      ∧ (scrapeArticles scenarioEnv.pages (results.map Candidate.obj)).outcome = .ok refs
      ∧ (enhanceArticleWithLLM scenarioEnv.rt scenarioEnv.pages scenarioEnv.models a
          refs).outcome = .ok content
      ∧ 42 = a.id
      ∧ [("title".toList, "X".toList),
          ("enhanced_content".toList,
            ("Hello world\n\n---\n\n## References\n\n1. [T1](https://a.example/blog/foo)\n"
              ++ "2. [T2](https://b.example/blog/bar)\n").toList)]
          = [("title".toList, a.title),
              ("enhanced_content".toList, addCitations (content.toStr scenarioEnv.rt) refs)]
      ∧ ([("title".toList, "X".toList),
          ("enhanced_content".toList,
            ("Hello world\n\n---\n\n## References\n\n1. [T1](https://a.example/blog/foo)\n"
              ++ "2. [T2](https://b.example/blog/bar)\n").toList)] : List (Str × Str)).map Prod.fst
          = ["title".toList, "enhanced_content".toList]
      ∧ "excerpt".toList ∉ ([("title".toList, "X".toList),
          ("enhanced_content".toList,
            ("Hello world\n\n---\n\n## References\n\n1. [T1](https://a.example/blog/foo)\n"
              ++ "2. [T2](https://b.example/blog/bar)\n").toList)] : List (Str × Str)).map Prod.fst
      ∧ "url".toList ∉ ([("title".toList, "X".toList),
          ("enhanced_content".toList,
            ("Hello world\n\n---\n\n## References\n\n1. [T1](https://a.example/blog/foo)\n"
              ++ "2. [T2](https://b.example/blog/bar)\n").toList)] : List (Str × Str)).map Prod.fst
      ∧ "published_at".toList ∉ ([("title".toList, "X".toList),
          ("enhanced_content".toList,
            ("Hello world\n\n---\n\n## References\n\n1. [T1](https://a.example/blog/foo)\n"
              ++ "2. [T2](https://b.example/blog/bar)\n").toList)] : List (Str × Str)).map Prod.fst
      ∧ (∀ s, content = .string s → content.toStr scenarioEnv.rt = s))
    ∧ (true = true
        ↔ ∃ response, scenarioEnv.putArticle 42
              [("title".toList, "X".toList),
               ("enhanced_content".toList,
                 ("Hello world\n\n---\n\n## References\n\n1. [T1](https://a.example/blog/foo)\n"
                   ++ "2. [T2](https://b.example/blog/bar)\n").toList)] = .ok response
            ∧ response.success = true)
    ∧ (∀ put : Nat → List (Str × Str) → Except Str PutResponse,
        put 42
            [("title".toList, "X".toList),
             ("enhanced_content".toList,
               ("Hello world\n\n---\n\n## References\n\n1. [T1](https://a.example/blog/foo)\n"
                 ++ "2. [T2](https://b.example/blog/bar)\n").toList)]
          = scenarioEnv.putArticle 42
            [("title".toList, "X".toList),
             ("enhanced_content".toList,
               ("Hello world\n\n---\n\n## References\n\n1. [T1](https://a.example/blog/foo)\n"
                 ++ "2. [T2](https://b.example/blog/bar)\n").toList)] →
        main { scenarioEnv with putArticle := put } = main scenarioEnv) :=
  ⟨by decide,
   main_update_payload scenarioEnv 42
    [("title".toList, "X".toList),
     ("enhanced_content".toList,
       ("Hello world\n\n---\n\n## References\n\n1. [T1](https://a.example/blog/foo)\n"
         ++ "2. [T2](https://b.example/blog/bar)\n").toList)] true (by decide)⟩

/-- C17: in every run of `main`, `updateArticle` is called at most once; a call
is the last event and comes after the article fetch, discovery, scraping with
at least one reference, and the enhancement have succeeded in that order; if
one of these stages fails, or the configuration is missing, no update call is
made and the exit code is 1; in Scenario B the run ends after two failed
discovery calls without an update. -/
theorem main_update_after_upstream (env : MainEnv) :
    ((main env).events.filter Event.isUpdate).length ≤ 1
    ∧ (∀ articleId updatedData ok,
        Event.updateArticle articleId updatedData ok ∈ (main env).events →
        ∃ before, (main env).events = before ++ [.updateArticle articleId updatedData ok]
          ∧ upstreamSucceeded before = true
          ∧ (∀ e ∈ before, e.isUpdate = false))
    ∧ (upstreamFailed (main env).events = true →
        (∀ e ∈ (main env).events, e.isUpdate = false) ∧ (main env).exitCode = 1)
    ∧ ((∀ e ∈ (main env).events, e.isUpdate = false) → (main env).exitCode = 1)
    ∧ ((main env).exitCode = 0 ∨ (main env).exitCode = 1)
    ∧ (main scenarioNoLinksEnv).events
        = [.fetchLatestArticle true, .searchGoogleForArticle "X".toList false,
           .searchGoogleForArticle "X".toList false]
    ∧ (main scenarioNoLinksEnv).exitCode = 1 := by
  refine ⟨?_, ?_, ?_, ?_, ?_, by decide, by decide⟩
  · rcases main_trace env with ⟨hno, -, -⟩ | ⟨a, searches, results, refs, n, content, ok, -, -, hs,
      -, -, -, hev, -⟩
    · have hnil : (main env).events.filter Event.isUpdate = [] := by
        rw [List.filter_eq_nil_iff]
        intro e he
        simp [hno e he]
      simp [hnil]
    · rw [hev]
      rcases hs with hs | hs <;> rw [hs] <;> simp [Event.isUpdate]
  · intro articleId updatedData ok h
    obtain ⟨a, searches, results, refs, n, content, -, -, hs, -, -, -, -, -, hev, -⟩ :=
      main_update_mem env articleId updatedData ok h
    refine ⟨_, hev, ?_, ?_⟩
    · rcases hs with hs | hs <;> rw [hs] <;> rfl
    · rcases hs with hs | hs <;> rw [hs] <;> simp [Event.isUpdate]
  · intro hfail
    rcases main_trace env with ⟨hno, hex, -⟩ | ⟨a, searches, results, refs, n, content, ok, -, -,
      hs, -, -, -, hev, -⟩
    · exact ⟨hno, hex⟩
    · rw [hev] at hfail
      rcases hs with hs | hs <;> rw [hs] at hfail <;>
        simp [upstreamFailed, Event.failed, discoveryFailed, Event.isSearch] at hfail
  · intro hno
    rcases main_trace env with ⟨-, hex, -⟩ | ⟨a, searches, results, refs, n, content, ok, -, -,
      hs, -, -, -, hev, -⟩
    · exact hex
    · have := hno (.updateArticle a.id
        (updatePayload a (addCitations (content.toStr env.rt) refs)) ok) (by rw [hev]; simp)
      simp [Event.isUpdate] at this
  · rcases main_trace env with ⟨-, hex, -⟩ | ⟨a, searches, results, refs, n, content, ok, -, -,
      hs, -, -, -, hev, hex⟩
    · exact Or.inr hex
    · cases ok
      · exact Or.inr (by simpa using hex)
      · exact Or.inl (by simpa using hex)

/-! ## Blocklist matching and stored titles -/

theorem keepResult_of_blocklisted (lower : Str → Str) (r : SearchResult) (link domain : Str)
    (hl : r.link = some link) (hd : domain ∈ excludedDomains)
    (hi : includes (lower link) domain = true) : keepResult lower r = false := by
  unfold keepResult
  rw [hl]
  cases link with
  | nil => rfl
  | cons c cs =>
    have hany : excludedDomains.any (fun d => includes (lower (c :: cs)) d) = true :=
      List.any_eq_true.mpr ⟨domain, hd, hi⟩
    simp only [hany, if_true]

theorem candidate_title_ne_nil (c : Candidate) : c.title ≠ [] := by
  cases c with
  | str s => exact (by decide : "Untitled".toList ≠ [])
  | obj r =>
    simp only [Candidate.title, orElse]
    split
    · exact List.cons_ne_nil _ _
    · exact (by decide : "Untitled".toList ≠ [])

theorem orElse_of_ne_nil (t fallback : Str) (h : t ≠ []) : orElse (some t) fallback = t := by
  cases t with
  | nil => exact absurd rfl h
  | cons a as => rfl

/-- C23: a link whose lower-cased URL contains one of the seventeen blocklist
strings anywhere is rejected by the callback and is in no result of
`filterBlogArticles`; the two links with the hosts `www.netflix.com` and
`www.dropbox.com` contain `x.com`, match a blog pattern, and are dropped, and
so is a link that names `twitter.com` only in its query. -/
theorem blocklist_by_substring (lower : Str → Str) (r : SearchResult) (link domain : Str)
    (rs : List SearchResult) (hl : r.link = some link) (hd : domain ∈ excludedDomains)
    (hi : includes (lower link) domain = true) :
    keepResult lower r = false
    ∧ r ∉ filterBlogArticles lower rs
    ∧ excludedDomains.length = 17
    ∧ includes (asciiLower "https://www.netflix.com/blog/some-post".toList) "x.com".toList = true
    ∧ hasBlogPattern (asciiLower "https://www.netflix.com/blog/some-post".toList) = true
    ∧ includes (asciiLower "https://www.dropbox.com/blog/2024/01/post".toList) "x.com".toList
        = true
    ∧ hasBlogPattern (asciiLower "https://www.dropbox.com/blog/2024/01/post".toList) = true
    ∧ filterBlogArticles asciiLower
        [mkResult "N" "https://www.netflix.com/blog/some-post",
         mkResult "D" "https://www.dropbox.com/blog/2024/01/post",
         mkResult "Q" "https://a.example/blog/share?via=twitter.com",
         mkResult "B" "https://b.example/blog/bar"]
        = [mkResult "B" "https://b.example/blog/bar"] := by
  have hk := keepResult_of_blocklisted lower r link domain hl hd hi
  refine ⟨hk, ?_, by decide, by decide, by decide, by decide, by decide, by decide⟩
  intro hmem
  have := (mem_filterBlogArticles hmem).2
  rw [hk] at this
  cases this

/-- C23, an instance: the link with host `www.netflix.com` is rejected for the
blocklist string `x.com`. -/
theorem blocklist_by_substring_witness :
    (mkResult "N" "https://www.netflix.com/blog/some-post").link
        = some "https://www.netflix.com/blog/some-post".toList
    ∧ "x.com".toList ∈ excludedDomains
    ∧ keepResult asciiLower (mkResult "N" "https://www.netflix.com/blog/some-post") = false
    ∧ mkResult "N" "https://www.netflix.com/blog/some-post"
        ∉ filterBlogArticles asciiLower [mkResult "N" "https://www.netflix.com/blog/some-post"] :=
  have hw := blocklist_by_substring asciiLower
    (mkResult "N" "https://www.netflix.com/blog/some-post")
    "https://www.netflix.com/blog/some-post".toList "x.com".toList
    [mkResult "N" "https://www.netflix.com/blog/some-post"] rfl (by decide) (by decide)
  ⟨rfl, by decide, hw.1, hw.2.1⟩

/-- C24: every reference returned by `scrapeArticles` has a non-empty title,
which `addCitations` uses as the label whatever the fallback label is; a
candidate whose title is missing or empty, and a bare URL string, get the title
`Untitled`, and such a reference is cited as `[Untitled](<url>)`. -/
theorem scraped_title_nonempty (env : ScrapeEnv) (urls : List Candidate)
    (refs : List ReferenceArticle) (r : ReferenceArticle)
    (h : (scrapeArticles env urls).outcome = .ok refs) (hr : r ∈ refs) :
    (∃ t, r.title = some t ∧ t ≠ [] ∧ ∀ fallback, orElse r.title fallback = t)
    ∧ (∀ index, ∃ t, t ≠ [] ∧ citationLine index r
        = Nat.toDigits 10 (index + 1) ++ ". [".toList ++ t ++ "](".toList ++ r.url.render
            ++ ")\n".toList)
    ∧ (∀ (c : SearchResult) (content : Str), truthy c.title = false →
        (scrapedEntry (.obj c) content).title = some "Untitled".toList)
    ∧ (∀ (s content : Str), (scrapedEntry (.str s) content).title = some "Untitled".toList)
    ∧ (∀ (c : SearchResult) (content : Str) (index : Nat), truthy c.title = false →
        citationLine index (scrapedEntry (.obj c) content)
          = Nat.toDigits 10 (index + 1) ++ ". [Untitled](".toList
              ++ (Candidate.obj c).url.render ++ ")\n".toList) := by
  have h1 := (scrapeLoop_ok env urls [] [] refs h).1
  simp only [List.nil_append] at h1
  rw [h1, List.mem_filterMap] at hr
  obtain ⟨c, -, hc⟩ := hr
  have hrc : ∃ content, r = scrapedEntry c content := by
    cases hts : tryScrape env c with
    | error m => simp [hts, Except.toOption] at hc
    | ok e =>
      simp only [hts, Except.toOption, Option.some.injEq] at hc
      subst hc
      obtain ⟨html, text, -, -, he⟩ := tryScrape_ok hts
      exact ⟨text, he⟩
  obtain ⟨content, hrc⟩ := hrc
  have htitle : r.title = some c.title := by rw [hrc]; rfl
  have hne := candidate_title_ne_nil c
  have huntitled : ∀ (c : SearchResult), truthy c.title = false →
      (Candidate.obj c).title = "Untitled".toList := by
    intro c hc
    simp only [Candidate.title, orElse]
    split
    · rename_i a as ha
      rw [ha] at hc
      simp [truthy] at hc
    · rfl
  refine ⟨⟨c.title, htitle, hne, ?_⟩, ?_, ?_, fun s content => rfl, ?_⟩
  · intro fallback
    rw [htitle]
    exact orElse_of_ne_nil _ _ hne
  · intro index
    refine ⟨c.title, hne, ?_⟩
    unfold citationLine
    rw [htitle, orElse_of_ne_nil _ _ hne]
  · intro c content hc
    simp only [scrapedEntry, huntitled c hc]
  · intro c content index hc
    unfold citationLine
    simp only [scrapedEntry, huntitled c hc]
    have e1 : orElse (some "Untitled".toList) "Source".toList = "Untitled".toList := rfl
    have e2 : ". [Untitled](".toList = ". [".toList ++ "Untitled".toList ++ "](".toList := by
      decide
    rw [e1, e2]
    simp only [List.append_assoc]

/-- C24, an instance: a candidate with an empty title, served, becomes the
reference titled `Untitled`. -/
theorem scraped_title_nonempty_witness :
    (scrapeArticles (pagesEnv [])
        [.obj { title := some [], link := some "https://a.example/blog/foo".toList,
                snippet := none }]).outcome
      = .ok [{ url := .text "https://a.example/blog/foo".toList,
               title := some "Untitled".toList,
               content := "Page text of https://a.example/blog/foo".toList }]
    ∧ addCitations "Hello world".toList
        [{ url := .text "https://a.example/blog/foo".toList,
           title := some "Untitled".toList,
           content := "Page text of https://a.example/blog/foo".toList }]
      = ("Hello world\n\n---\n\n## References\n\n"
          ++ "1. [Untitled](https://a.example/blog/foo)\n").toList
    ∧ ∃ t, (ReferenceArticle.mk (.text "https://a.example/blog/foo".toList)
          (some "Untitled".toList) "Page text of https://a.example/blog/foo".toList).title
          = some t ∧ t ≠ []
        ∧ ∀ fallback, orElse (ReferenceArticle.mk (.text "https://a.example/blog/foo".toList)
          (some "Untitled".toList) "Page text of https://a.example/blog/foo".toList).title
          fallback = t :=
  ⟨by decide, by decide,
   (scraped_title_nonempty (pagesEnv [])
      [.obj { title := some [], link := some "https://a.example/blog/foo".toList,
              snippet := none }] _
      { url := .text "https://a.example/blog/foo".toList,
        title := some "Untitled".toList,
        content := "Page text of https://a.example/blog/foo".toList }
      (by decide) (List.mem_singleton.mpr rfl)).1⟩

/-! ## The prompt and the discovery retry -/

theorem includes_of_infix (s sub : Str) (h : sub <:+: s) : includes s sub = true := by
  obtain ⟨pre, post, hs⟩ := h
  unfold includes
  rw [List.any_eq_true]
  refine ⟨sub ++ post, ?_, ?_⟩
  · rw [List.mem_tails]
    exact ⟨pre, by rw [← hs, List.append_assoc]⟩
  · rw [List.isPrefixOf_iff_prefix]
    exact List.prefix_append _ _

theorem infix_intercalate (sep : Str) (parts : List Str) (p : Str) (h : p ∈ parts) :
    p <:+: List.intercalate sep parts := by
  unfold List.intercalate
  apply List.infix_of_mem_flatten
  induction parts with
  | nil => cases h
  | cons a rest ih =>
    cases rest with
    | nil =>
      simp only [List.mem_singleton] at h
      subst h
      simp
    | cons b rest2 =>
      rcases List.mem_cons.mp h with rfl | h2
      · simp
      · have := ih h2
        simp only [List.intersperse_cons₂, List.mem_cons]
        exact Or.inr (Or.inr this)

theorem callModels_congr (m1 m2 : ModelEnv) (prompt : Str)
    (h : ∀ model, m1.generateContent model prompt = m2.generateContent model prompt) :
    callModels m1 prompt = callModels m2 prompt := by
  unfold callModels
  simp only [h]

theorem split_ne_nil (sep : Char) (s : Str) : split sep s ≠ [] := by
  cases s with
  | nil => simp [split]
  | cons c cs =>
    unfold split
    split
    · simp
    · split <;> simp

theorem intercalate_cons_cons (sep a b : Str) (rest : List Str) :
    List.intercalate sep (a :: b :: rest) = a ++ sep ++ List.intercalate sep (b :: rest) := by
  simp [List.intercalate, List.intersperse]

theorem join_split (sep : Char) (s : Str) : join [sep] (split sep s) = s := by
  unfold join
  induction s with
  | nil => simp [split, List.intercalate]
  | cons c cs ih =>
    unfold split
    by_cases hc : c = sep
    · simp only [hc, if_true]
      cases hs : split sep cs with
      | nil => exact absurd hs (split_ne_nil sep cs)
      | cons p ps =>
        rw [intercalate_cons_cons, ← hs, ih]
        rfl
    · simp only [hc, if_false]
      cases hs : split sep cs with
      | nil => exact absurd hs (split_ne_nil sep cs)
      | cons p ps =>
        rw [hs] at ih
        simp only
        cases ps with
        | nil =>
          simp only [List.intercalate, List.intersperse, List.flatten_cons, List.flatten_nil,
            List.append_nil] at ih ⊢
          rw [ih]
        | cons q qs =>
          rw [intercalate_cons_cons] at ih ⊢
          simp only [List.cons_append, List.append_assoc] at ih ⊢
          rw [ih]

theorem referenceBlocks_eq (refs : List ReferenceArticle) (n : Nat) :
    (refs.enumFrom n).map (fun e => referenceBlock e.1 e.2)
      = List.zipWith specBlock (List.range' (n + 1) refs.length) refs := by
  induction refs generalizing n with
  | nil => rfl
  | cons r rest ih =>
    simp only [List.enumFrom, List.map_cons, List.length_cons, List.range'_succ,
      List.zipWith_cons_cons, ih]
    simp [referenceBlock, specBlock]

theorem referenceContent_eq (refs : List ReferenceArticle) :
    referenceContent refs = List.intercalate "\n\n---\n\n".toList (specBlocks refs) := by
  unfold referenceContent join specBlocks List.enum
  rw [referenceBlocks_eq]

theorem enhance_congr (rt : Runtime) (pages : ScrapeEnv) (m1 m2 : ModelEnv) (a : Article)
    (refs : List ReferenceArticle)
    (h : ∀ model,
      m1.generateContent model
          (buildPrompt a.title (originalContent pages a).2 (referenceContent refs))
        = m2.generateContent model
          (buildPrompt a.title (originalContent pages a).2 (referenceContent refs))) :
    enhanceArticleWithLLM rt pages m1 a refs = enhanceArticleWithLLM rt pages m2 a refs := by
  unfold enhanceArticleWithLLM
  simp only [callModels_congr m1 m2 _ h]

/-- C21: the prompt that `enhanceArticleWithLLM` sends is the fixed text around
the title, the first 3000 characters of the original content (a prefix of it,
never longer than 3000), and the reference blocks
`Reference Article <i> (<url_i>):` with the content on the next line, numbered
from 1 in order and joined by the separator of two line breaks, three dashes
and two line breaks; the truncated content and every block occur in the
prompt, and the models are asked with this prompt only. -/
theorem enhance_prompt (pages : ScrapeEnv) (a : Article) (refs : List ReferenceArticle) :
    buildPrompt a.title (originalContent pages a).2 (referenceContent refs)
      = promptIntro ++ a.title ++ promptContentLabel ++ (originalContent pages a).2.take 3000
          ++ promptReferencesLabel
          ++ List.intercalate "\n\n---\n\n".toList (specBlocks refs) ++ promptInstructions
    ∧ ((originalContent pages a).2.take 3000).length ≤ 3000
    ∧ List.IsPrefix ((originalContent pages a).2.take 3000) (originalContent pages a).2
    ∧ includes (buildPrompt a.title (originalContent pages a).2 (referenceContent refs))
        ((originalContent pages a).2.take 3000) = true
    ∧ (specBlocks refs).length = refs.length
    ∧ (∀ k : Nat, (specBlocks refs)[k]? = (refs[k]?).map (specBlock (k + 1)))
    ∧ (∀ b ∈ specBlocks refs,
        includes (buildPrompt a.title (originalContent pages a).2 (referenceContent refs)) b
          = true)
    ∧ (∀ (rt : Runtime) (m1 m2 : ModelEnv),
        (∀ model,
          m1.generateContent model
              (buildPrompt a.title (originalContent pages a).2 (referenceContent refs))
            = m2.generateContent model
              (buildPrompt a.title (originalContent pages a).2 (referenceContent refs))) →
        enhanceArticleWithLLM rt pages m1 a refs = enhanceArticleWithLLM rt pages m2 a refs)
    ∧ referenceContent
        [⟨.text "https://a.example/blog/foo".toList, some "T1".toList, "First".toList⟩,
         ⟨.text "https://b.example/blog/bar".toList, some "T2".toList, "Second".toList⟩]
        = ("Reference Article 1 (https://a.example/blog/foo):\nFirst\n\n---\n\n"
            ++ "Reference Article 2 (https://b.example/blog/bar):\nSecond").toList := by
  refine ⟨?_, List.length_take_le _ _, List.take_prefix _ _, ?_, ?_, ?_, ?_, ?_, by decide⟩
  · unfold buildPrompt
    rw [referenceContent_eq]
  · apply includes_of_infix
    unfold buildPrompt
    exact ⟨promptIntro ++ a.title ++ promptContentLabel,
      promptReferencesLabel ++ referenceContent refs ++ promptInstructions,
      by simp only [List.append_assoc]⟩
  · simp [specBlocks]
  · intro k
    by_cases h : k < refs.length
    · simp [specBlocks, List.getElem?_zipWith, List.getElem?_range', h, Nat.add_comm]
    · have h2 : refs.length ≤ k := Nat.le_of_not_lt h
      simp [specBlocks, List.getElem?_zipWith, List.getElem?_range', h,
        List.getElem?_eq_none h2]
  · intro b hb
    apply includes_of_infix
    obtain ⟨pre, post, hpp⟩ := infix_intercalate "\n\n---\n\n".toList (specBlocks refs) b hb
    unfold buildPrompt
    rw [referenceContent_eq, ← hpp]
    exact ⟨promptIntro ++ a.title ++ promptContentLabel ++ (originalContent pages a).2.take 3000
        ++ promptReferencesLabel ++ pre,
      post ++ promptInstructions, by simp only [List.append_assoc]⟩
  · intro rt m1 m2 h
    exact enhance_congr rt pages m1 m2 a refs h

theorem enhanceAndPublish_searches (env : MainEnv) (a : Article) (refs : List ReferenceArticle)
    (before : List Event) :
    (enhanceAndPublish env a refs before).events.filter Event.isSearch
      = before.filter Event.isSearch := by
  rcases enhanceAndPublish_cases env a refs before with ⟨h1, -⟩ | ⟨content, ok, -, h1, -⟩
  · rw [h1]
    simp [Event.isSearch]
  · rw [h1]
    simp [Event.isSearch]

theorem scrapeAndAfter_searches (env : MainEnv) (a : Article) (results : List SearchResult)
    (before : List Event) :
    (scrapeAndAfter env a results before).events.filter Event.isSearch
      = before.filter Event.isSearch := by
  rcases scrapeAndAfter_cases env a results before with ⟨h1, -⟩ | ⟨h1, -⟩ | ⟨refs, n, -, -, hrun⟩
  · rw [h1]
    simp [Event.isSearch]
  · rw [h1]
    simp [Event.isSearch]
  · rw [hrun, enhanceAndPublish_searches]
    simp [Event.isSearch]

theorem main_searches (env : MainEnv) (a : Article) (hkey : truthy env.GEMINI_API_KEY = true)
    (hf : fetchLatestArticle env = .ok a) :
    (main env).events.filter Event.isSearch = (discover env a.title).1 := by
  have hk : ¬ truthy env.GEMINI_API_KEY = false := by simp [hkey]
  unfold main
  rw [if_neg hk, hf]
  simp only
  rcases discover_cases env a.title with ⟨r, hd⟩ | ⟨r, hd⟩ | ⟨e, hd⟩
  · rw [hd]
    simp only
    rw [scrapeAndAfter_searches]
    simp [Event.isSearch]
  · rw [hd]
    simp only
    rw [scrapeAndAfter_searches]
    simp [Event.isSearch]
  · rw [hd]
    simp [Event.isSearch]

theorem genericQuery_of_short (title : Str) (h : (split ' ' title).length ≤ 5) :
    genericQuery title = title := by
  unfold genericQuery
  rw [List.take_of_length_le h]
  exact join_split ' ' title

/-- C26: when the first call of `searchGoogleForArticle`, made with the full
title, throws, `main` calls it exactly once more, with the first five
space-separated words of the title joined by single spaces; if that call
returns, its links are used; if it throws too, discovery fails with the
could-not-find-suitable-articles error carrying the message of the first
error, and the run ends with exit code 1 after these two calls; a title of at
most five space-separated pieces is retried unchanged. -/
theorem main_generic_retry (env : MainEnv) (a : Article) (e : JSError)
    (hkey : truthy env.GEMINI_API_KEY = true) (hf : fetchLatestArticle env = .ok a)
    (h1 : (searchGoogleForArticle env.search a.title).outcome = .error e) :
    genericQuery a.title = List.intercalate [' '] ((split ' ' a.title).take 5)
    ∧ (∀ r, (searchGoogleForArticle env.retrySearch (genericQuery a.title)).outcome = .ok r →
        (main env).events.filter Event.isSearch
          = [.searchGoogleForArticle a.title false,
             .searchGoogleForArticle (genericQuery a.title) true]
        ∧ (discover env a.title).2 = .ok r)
    ∧ (∀ e2, (searchGoogleForArticle env.retrySearch (genericQuery a.title)).outcome
          = .error e2 →
        (main env).events
          = [.fetchLatestArticle true, .searchGoogleForArticle a.title false,
             .searchGoogleForArticle (genericQuery a.title) false]
        ∧ (main env).exitCode = 1
        ∧ (discover env a.title).2
          = .error (.error ("Could not find suitable articles. Original error: ".toList
              ++ e.message)))
    ∧ ((split ' ' a.title).length ≤ 5 → genericQuery a.title = a.title) := by
  have hs := main_searches env a hkey hf
  have hk : ¬ truthy env.GEMINI_API_KEY = false := by simp [hkey]
  refine ⟨rfl, ?_, ?_, genericQuery_of_short a.title⟩
  · intro r h2
    have hd : discover env a.title
        = ([.searchGoogleForArticle a.title false,
            .searchGoogleForArticle (genericQuery a.title) true], .ok r) := by
      unfold discover
      rw [h1]
      simp only
      rw [h2]
    rw [hs, hd]
    exact ⟨rfl, rfl⟩
  · intro e2 h2
    have hd : discover env a.title
        = ([.searchGoogleForArticle a.title false,
            .searchGoogleForArticle (genericQuery a.title) false],
           .error (noSuitableArticlesError e)) := by
      unfold discover
      rw [h1]
      simp only
      rw [h2]
    refine ⟨?_, ?_, ?_⟩
    · unfold main
      rw [if_neg hk, hf]
      simp only
      rw [hd]
    · unfold main
      rw [if_neg hk, hf]
      simp only
      rw [hd]
    · rw [hd]
      rfl

/-- C26, an instance: in Scenario B the title `X` is searched twice, the
second time unchanged, and the run ends with exit code 1. -/
theorem main_generic_retry_witness :
    truthy scenarioNoLinksEnv.GEMINI_API_KEY = true
    ∧ fetchLatestArticle scenarioNoLinksEnv = .ok scenarioArticle
    ∧ (searchGoogleForArticle scenarioNoLinksEnv.search scenarioArticle.title).outcome
        = .error noLinksError
    ∧ (main scenarioNoLinksEnv).events
        = [.fetchLatestArticle true, .searchGoogleForArticle scenarioArticle.title false,
           .searchGoogleForArticle (genericQuery scenarioArticle.title) false]
    ∧ (main scenarioNoLinksEnv).exitCode = 1
    ∧ (discover scenarioNoLinksEnv scenarioArticle.title).2
        = .error (.error ("Could not find suitable articles. Original error: ".toList
            ++ noLinksError.message))
    ∧ genericQuery scenarioArticle.title = scenarioArticle.title
    ∧ genericQuery "one two three four five six seven".toList
        = "one two three four five".toList :=
  have hw := main_generic_retry scenarioNoLinksEnv scenarioArticle noLinksError
    (by decide) (by decide) (by decide)
  ⟨by decide, by decide, by decide, (hw.2.2.1 noLinksError (by decide)).1,
   (hw.2.2.1 noLinksError (by decide)).2.1, (hw.2.2.1 noLinksError (by decide)).2.2,
   hw.2.2.2 (by decide), by decide⟩

/-! ## Determinism and the depth bound -/

/-- C22: two runs of `main` that are given the same original article, the same
discovery results, the same pages, the same model service and the same runtime
conversions pass the same payload, hence the same `enhanced_content`, for the
same article to `updateArticle`, whatever else differs between the runs. -/
theorem main_deterministic (env1 env2 : MainEnv) (id1 id2 : Nat) (d1 d2 : List (Str × Str))
    (ok1 ok2 : Bool)
    (h1 : Event.updateArticle id1 d1 ok1 ∈ (main env1).events)
    (h2 : Event.updateArticle id2 d2 ok2 ∈ (main env2).events)
    (hart : fetchLatestArticle env1 = fetchLatestArticle env2)
    (hsearch : ∀ title, (discover env1 title).2 = (discover env2 title).2)
    (hpages : env1.pages = env2.pages) (hmodels : env1.models = env2.models)
    (hrt : env1.rt = env2.rt) :
    id1 = id2 ∧ d1 = d2
    ∧ (d1.find? (fun f => f.1 = "enhanced_content".toList)).map Prod.snd
        = (d2.find? (fun f => f.1 = "enhanced_content".toList)).map Prod.snd := by
  obtain ⟨a1, s1, r1, refs1, n1, c1, hf1, hd1, -, hsc1, -, he1, hid1, hdata1, -, -⟩ :=
    main_update_mem env1 id1 d1 ok1 h1
  obtain ⟨a2, s2, r2, refs2, n2, c2, hf2, hd2, -, hsc2, -, he2, hid2, hdata2, -, -⟩ :=
    main_update_mem env2 id2 d2 ok2 h2
  have ha : a1 = a2 := by
    rw [hart, hf2] at hf1
    injection hf1 with hf1
    exact hf1.symm
  subst ha
  have hr : r1 = r2 := by
    have := hsearch a1.title
    rw [hd1, hd2] at this
    injection this
  subst hr
  have hrefs : refs1 = refs2 := by
    rw [hpages, hsc2] at hsc1
    injection hsc1 with hsc1
    exact hsc1.symm
  subst hrefs
  have hc : c1 = c2 := by
    rw [hpages, hmodels, hrt, he2] at he1
    injection he1 with he1
    exact he1.symm
  subst hc
  have hd : d1 = d2 := by rw [hdata1, hdata2, hrt]
  exact ⟨by rw [hid1, hid2], hd, by rw [hd]⟩

/-- C22, an instance: the run of Scenario A and a run with another credential
and a refused update pass the same payload. -/
theorem main_deterministic_witness :
    Event.updateArticle 42
        [("title".toList, "X".toList),
         ("enhanced_content".toList,
           ("Hello world\n\n---\n\n## References\n\n1. [T1](https://a.example/blog/foo)\n"
             ++ "2. [T2](https://b.example/blog/bar)\n").toList)] true
      ∈ (main scenarioEnv).events
    ∧ Event.updateArticle 42
        [("title".toList, "X".toList),
         ("enhanced_content".toList,
           ("Hello world\n\n---\n\n## References\n\n1. [T1](https://a.example/blog/foo)\n"
             ++ "2. [T2](https://b.example/blog/bar)\n").toList)] false
      ∈ (main scenarioRefusedEnv).events
    ∧ (42 : Nat) = 42
    ∧ ([("title".toList, "X".toList),
         ("enhanced_content".toList,
           ("Hello world\n\n---\n\n## References\n\n1. [T1](https://a.example/blog/foo)\n"
             ++ "2. [T2](https://b.example/blog/bar)\n").toList)] : List (Str × Str))
      = [("title".toList, "X".toList),
         ("enhanced_content".toList,
           ("Hello world\n\n---\n\n## References\n\n1. [T1](https://a.example/blog/foo)\n"
             ++ "2. [T2](https://b.example/blog/bar)\n").toList)] :=
  have hw := main_deterministic scenarioEnv scenarioRefusedEnv 42 42
    [("title".toList, "X".toList),
     ("enhanced_content".toList,
       ("Hello world\n\n---\n\n## References\n\n1. [T1](https://a.example/blog/foo)\n"
         ++ "2. [T2](https://b.example/blog/bar)\n").toList)]
    [("title".toList, "X".toList),
     ("enhanced_content".toList,
       ("Hello world\n\n---\n\n## References\n\n1. [T1](https://a.example/blog/foo)\n"
         ++ "2. [T2](https://b.example/blog/bar)\n").toList)]
    true false (by decide) (by decide) rfl (fun _ => rfl) rfl rfl rfl
  ⟨by decide, by decide, hw.1, hw.2.1⟩

theorem longString_cutBelow (levels : Nat) (v : JSValue) :
    longString (cutBelow levels v) = longString v := by
  cases v <;> cases levels <;> simp [cutBelow, longString]

theorem findTextFrom_cutBelow (levels : Nat) :
    ∀ v : JSValue, findTextFrom levels (cutBelow levels v) = findTextFrom levels v := by
  induction levels with
  | zero =>
    intro v
    simp [findTextFrom]
  | succ levels ih =>
    intro v
    have hstep : ∀ e : Str × JSValue,
        (match (if e.1 = "text".toList ∨ e.1 = "content".toList
                then longString (cutBelow levels e.2) else none) with
          | some s => some s
          | none => findTextFrom levels (cutBelow levels e.2))
        = (match (if e.1 = "text".toList ∨ e.1 = "content".toList then longString e.2
                  else none) with
          | some s => some s
          | none => findTextFrom levels e.2) := by
      intro e
      rw [longString_cutBelow, ih]
    cases v with
    | string s => simp [cutBelow]
    | undefined => simp [cutBelow]
    | null => simp [cutBelow]
    | bool b => simp [cutBelow]
    | number n => simp [cutBelow]
    | object fields =>
      simp only [cutBelow, findTextFrom, longString, JSValue.entries, List.findSome?_map]
      congr 1
      funext e
      exact hstep e
    | array items =>
      simp only [cutBelow, findTextFrom, longString, JSValue.entries, List.enum_map,
        List.findSome?_map, List.map_map]
      congr 1
      funext e
      exact hstep (Nat.toDigits 10 e.1, e.2)

/-- C25: `findText` is a total function that stops at the depth bound: its
result is that on the response cut off below level 6, where of the values at
level 6 only the strings are kept, so nothing deeper is looked at and no value
at level 6 is descended into; a string it returns is longer than 100 and lies
at most 6 levels below the root; it returns null when no string within 6
levels is longer than 100; and a call at depth 6 returns null at once. -/
theorem findText_depth_bounded (response : JSValue) :
    findText (cutBelow 6 response) = findText response
    ∧ (∀ s, findText response = some s → 100 < s.length ∧ s ∈ stringsWithin 6 response)
    ∧ ((∀ s ∈ stringsWithin 6 response, s.length ≤ 100) → findText response = none)
    ∧ (∀ v, findTextFrom 0 v = none)
    ∧ findText (nestUnder 5 (.string (List.replicate 101 'x'))) = some (List.replicate 101 'x')
    ∧ findText (nestUnder 5 (jsObject [("text", .string (List.replicate 101 'x'))]))
        = some (List.replicate 101 'x')
    ∧ findText (nestUnder 5 (jsObject [("foo", .string (List.replicate 101 'x'))])) = none
    ∧ findText (nestUnder 6 (jsObject [("text", .string (List.replicate 101 'x'))])) = none
    ∧ findText (nestUnder 6 (.string (List.replicate 101 'x'))) = none := by
  refine ⟨findTextFrom_cutBelow 6 response, fun s h => findTextFrom_sound 6 response s h, ?_,
    fun v => rfl, by decide, by decide, by decide, by decide, by decide⟩
  intro hall
  cases hf : findText response with
  | none => rfl
  | some s =>
    obtain ⟨hlen, hmem⟩ := findTextFrom_sound 6 response s hf
    have := hall s hmem
    omega

end ContentUpgrader
